import Mathlib

/-! MediaExtractor::Create and the MIME type constants (libstagefright).

A shallow embedding of `media/libstagefright/MediaExtractor.cpp` and of the
string constants of `media/libstagefright/MediaDefs.cpp`.

Conventions of the embedding.

* A C string (`const char *`, `String8::string()`) is the list of its
  characters before the terminating NUL (`CStr`), a `Char` standing for the
  C `char` of the same code; a null pointer is `none`.
* The C library functions used by the source (`strcmp`, `strncmp`,
  `strcasecmp`, `strchr`, `tolower`) are embedded on `CStr`; the comparison
  functions return only the sign of the C result (negative, zero, positive),
  which is all the C standard fixes and all the source uses.
* `float` confidences are the rational numbers they denote, and the
  comparisons of the source are comparisons of those numbers
  (`float32_lt_double_literal` justifies this for `confidence < 0.8`, where
  the literal is a `double`).
* The two builds of the file (`WITH_AMLOGIC_MEDIA_EX_SUPPORT` defined or not)
  are one function taking `Option AmlogicMediaExSupport`.
* Calls to collaborators that do not live in this file (the source's `sniff`,
  `sniffFFmpegFormat`, `createFFmpegExtractor`, `createAmExExtractor`) are
  recorded, in order, in the `calls` of the outcome.
* What `MediaExtractor.h` declares and the source only uses (the enumerators of
  `flags()`, the `setDrmFlag` member) is a parameter or is modelled from the
  specification, as said at the definition.
-/

namespace android

/-! ## C strings -/

/-- The characters of a C string before its terminating NUL. -/
abbrev CStr := List Char

/-- C `tolower` in the "C" locale: only `A`..`Z` change. -/
def tolower (c : Char) : Char :=
  if 65 ≤ c.toNat ∧ c.toNat ≤ 90 then Char.ofNat (c.toNat + 32) else c

/-- C `strcmp`, up to the sign of the result. -/
def strcmp : CStr → CStr → Int
  | [], [] => 0
  | [], _ :: _ => -1
  | _ :: _, [] => 1
  | a :: as, b :: bs =>
    if a = b then strcmp as bs else if a.toNat < b.toNat then -1 else 1

/-- C `strncmp`, up to the sign of the result: at most `n` characters are compared. -/
def strncmp : CStr → CStr → Nat → Int
  | _, _, 0 => 0
  | [], [], _ + 1 => 0
  | [], _ :: _, _ + 1 => -1
  | _ :: _, [], _ + 1 => 1
  | a :: as, b :: bs, n + 1 =>
    if a = b then strncmp as bs n else if a.toNat < b.toNat then -1 else 1

/-- C `strcasecmp`, up to the sign of the result: `strcmp` after `tolower` on both sides. -/
def strcasecmp : CStr → CStr → Int
  | [], [] => 0
  | [], _ :: _ => -1
  | _ :: _, [] => 1
  | a :: as, b :: bs =>
    if tolower a = tolower b then strcasecmp as bs
    else if (tolower a).toNat < (tolower b).toNat then -1 else 1

/-- C `strchr` for a character other than NUL: the suffix of the string that
starts at the first occurrence of `c`, or `none` (a null pointer). -/
def strchr : CStr → Char → Option CStr
  | [], _ => none
  | a :: as, c => if a = c then some (a :: as) else strchr as c

/-- Whether two characters are equal or are the upper-case and lower-case
form of the same ASCII letter. -/
def sameLetter (a b : Char) : Bool :=
  a == b
    || (decide (65 ≤ a.toNat) && decide (a.toNat ≤ 90) && b.toNat == a.toNat + 32)
    || (decide (65 ≤ b.toNat) && decide (b.toNat ≤ 90) && a.toNat == b.toNat + 32)

/-- Whether two strings are equal up to the case of ASCII letters. -/
def eqUpToAsciiCase : CStr → CStr → Bool
  | [], [] => true
  | a :: as, b :: bs => sameLetter a b && eqUpToAsciiCase as bs
  | _, _ => false

/-! ## MediaDefs.cpp: the MIME type constants, in the order of the source -/

def MEDIA_MIMETYPE_IMAGE_JPEG : CStr := "image/jpeg".toList
def MEDIA_MIMETYPE_VIDEO_VPX : CStr := "video/x-vnd.on2.vp8".toList
def MEDIA_MIMETYPE_VIDEO_VP8 : CStr := "video/x-vnd.on2.vp8".toList
def MEDIA_MIMETYPE_VIDEO_VP9 : CStr := "video/x-vnd.on2.vp9".toList
def MEDIA_MIMETYPE_VIDEO_AVC : CStr := "video/avc".toList
def MEDIA_MIMETYPE_VIDEO_HEVC : CStr := "video/hevc".toList
def MEDIA_MIMETYPE_VIDEO_MPEG4 : CStr := "video/mp4v-es".toList
def MEDIA_MIMETYPE_VIDEO_H263 : CStr := "video/3gpp".toList
def MEDIA_MIMETYPE_VIDEO_MPEG2 : CStr := "video/mpeg2".toList
def MEDIA_MIMETYPE_VIDEO_RM10 : CStr := "video/rm10".toList
def MEDIA_MIMETYPE_VIDEO_RM20 : CStr := "video/rm20".toList
def MEDIA_MIMETYPE_VIDEO_RM40 : CStr := "video/rm40".toList
def MEDIA_MIMETYPE_VIDEO_RAW : CStr := "video/raw".toList
def MEDIA_MIMETYPE_VIDEO_WMV1 : CStr := "video/wmv1".toList
def MEDIA_MIMETYPE_VIDEO_WMV2 : CStr := "video/wmv2".toList
def MEDIA_MIMETYPE_VIDEO_WMV3 : CStr := "video/wmv3".toList
def MEDIA_MIMETYPE_AUDIO_AMR_NB : CStr := "audio/3gpp".toList
def MEDIA_MIMETYPE_AUDIO_AMR_WB : CStr := "audio/amr-wb".toList
def MEDIA_MIMETYPE_AUDIO_MPEG : CStr := "audio/mpeg".toList
def MEDIA_MIMETYPE_AUDIO_MPEG_LAYER_I : CStr := "audio/mpeg-L1".toList
def MEDIA_MIMETYPE_AUDIO_MPEG_LAYER_II : CStr := "audio/mpeg-L2".toList
def MEDIA_MIMETYPE_AUDIO_MIDI : CStr := "audio/midi".toList
def MEDIA_MIMETYPE_AUDIO_AAC : CStr := "audio/mp4a-latm".toList
def MEDIA_MIMETYPE_AUDIO_QCELP : CStr := "audio/qcelp".toList
def MEDIA_MIMETYPE_AUDIO_VORBIS : CStr := "audio/vorbis".toList
def MEDIA_MIMETYPE_AUDIO_OPUS : CStr := "audio/opus".toList
def MEDIA_MIMETYPE_AUDIO_G711_ALAW : CStr := "audio/g711-alaw".toList
def MEDIA_MIMETYPE_AUDIO_G711_MLAW : CStr := "audio/g711-mlaw".toList
def MEDIA_MIMETYPE_AUDIO_RAW : CStr := "audio/raw".toList
def MEDIA_MIMETYPE_AUDIO_ADPCM_IMA : CStr := "audio/adpcm-ima".toList
def MEDIA_MIMETYPE_AUDIO_ADPCM_MS : CStr := "audio/adpcm-ms".toList
def MEDIA_MIMETYPE_AUDIO_FLAC : CStr := "audio/flac".toList
def MEDIA_MIMETYPE_AUDIO_AAC_ADTS : CStr := "audio/aac-adts".toList
def MEDIA_MIMETYPE_AUDIO_ALAC : CStr := "audio/alac".toList
def MEDIA_MIMETYPE_AUDIO_AAC_ADIF : CStr := "audio/aac-adif".toList
def MEDIA_MIMETYPE_AUDIO_AAC_LATM : CStr := "audio/aac-latm".toList
def MEDIA_MIMETYPE_AUDIO_ADTS_PROFILE : CStr := "audio/adts".toList
def MEDIA_MIMETYPE_AUDIO_WMA : CStr := "audio/wma".toList
def MEDIA_MIMETYPE_AUDIO_WMAPRO : CStr := "audio/wmapro".toList
def MEDIA_MIMETYPE_AUDIO_DTSHD : CStr := "audio/dtshd".toList
def MEDIA_MIMETYPE_AUDIO_MSGSM : CStr := "audio/gsm".toList
def MEDIA_MIMETYPE_AUDIO_AC3 : CStr := "audio/ac3".toList
def MEDIA_MIMETYPE_AUDIO_EAC3 : CStr := "audio/eac3".toList
def MEDIA_MIMETYPE_AUDIO_TRUEHD : CStr := "audio/truehd".toList
def MEDIA_MIMETYPE_AUDIO_EC3 : CStr := "audio/eac3".toList
def MEDIA_MIMETYPE_AUDIO_APE : CStr := "audio/ape".toList
def MEDIA_MIMETYPE_AUDIO_FFMPEG : CStr := "audio/ffmpeg".toList
def MEDIA_MIMETYPE_CONTAINER_MPEG4 : CStr := "video/mp4".toList
def MEDIA_MIMETYPE_CONTAINER_WAV : CStr := "audio/x-wav".toList
def MEDIA_MIMETYPE_CONTAINER_AIFF : CStr := "audio/x-aiff".toList
def MEDIA_MIMETYPE_CONTAINER_OGG : CStr := "application/ogg".toList
def MEDIA_MIMETYPE_CONTAINER_MATROSKA : CStr := "video/x-matroska".toList
def MEDIA_MIMETYPE_CONTAINER_MPEG2TS : CStr := "video/mp2ts".toList
def MEDIA_MIMETYPE_CONTAINER_AVI : CStr := "video/avi".toList
def MEDIA_MIMETYPE_CONTAINER_MPEG2PS : CStr := "video/mp2p".toList
def MEDIA_MIMETYPE_CONTAINER_WVM : CStr := "video/wvm".toList
def MEDIA_MIMETYPE_TEXT_3GPP : CStr := "text/3gpp-tt".toList
def MEDIA_MIMETYPE_TEXT_SUBRIP : CStr := "application/x-subrip".toList
def MEDIA_MIMETYPE_TEXT_VTT : CStr := "text/vtt".toList
def MEDIA_MIMETYPE_TEXT_CEA_608 : CStr := "text/cea-608".toList
def MEDIA_MIMETYPE_CONTAINER_DDP : CStr := "audio/ddp".toList
def MEDIA_MIMETYPE_DATA_TIMED_ID3 : CStr := "application/x-id3v4".toList

/-- The constants of MediaDefs.cpp, lines 21-87: each name with its string. -/
def registry : List (String × CStr) :=
  [("MEDIA_MIMETYPE_IMAGE_JPEG", MEDIA_MIMETYPE_IMAGE_JPEG),
   ("MEDIA_MIMETYPE_VIDEO_VPX", MEDIA_MIMETYPE_VIDEO_VPX),
   ("MEDIA_MIMETYPE_VIDEO_VP8", MEDIA_MIMETYPE_VIDEO_VP8),
   ("MEDIA_MIMETYPE_VIDEO_VP9", MEDIA_MIMETYPE_VIDEO_VP9),
   ("MEDIA_MIMETYPE_VIDEO_AVC", MEDIA_MIMETYPE_VIDEO_AVC),
   ("MEDIA_MIMETYPE_VIDEO_HEVC", MEDIA_MIMETYPE_VIDEO_HEVC),
   ("MEDIA_MIMETYPE_VIDEO_MPEG4", MEDIA_MIMETYPE_VIDEO_MPEG4),
   ("MEDIA_MIMETYPE_VIDEO_H263", MEDIA_MIMETYPE_VIDEO_H263),
   ("MEDIA_MIMETYPE_VIDEO_MPEG2", MEDIA_MIMETYPE_VIDEO_MPEG2),
   ("MEDIA_MIMETYPE_VIDEO_RM10", MEDIA_MIMETYPE_VIDEO_RM10),
   ("MEDIA_MIMETYPE_VIDEO_RM20", MEDIA_MIMETYPE_VIDEO_RM20),
   ("MEDIA_MIMETYPE_VIDEO_RM40", MEDIA_MIMETYPE_VIDEO_RM40),
   ("MEDIA_MIMETYPE_VIDEO_RAW", MEDIA_MIMETYPE_VIDEO_RAW),
   ("MEDIA_MIMETYPE_VIDEO_WMV1", MEDIA_MIMETYPE_VIDEO_WMV1),
   ("MEDIA_MIMETYPE_VIDEO_WMV2", MEDIA_MIMETYPE_VIDEO_WMV2),
   ("MEDIA_MIMETYPE_VIDEO_WMV3", MEDIA_MIMETYPE_VIDEO_WMV3),
   ("MEDIA_MIMETYPE_AUDIO_AMR_NB", MEDIA_MIMETYPE_AUDIO_AMR_NB),
   ("MEDIA_MIMETYPE_AUDIO_AMR_WB", MEDIA_MIMETYPE_AUDIO_AMR_WB),
   ("MEDIA_MIMETYPE_AUDIO_MPEG", MEDIA_MIMETYPE_AUDIO_MPEG),
   ("MEDIA_MIMETYPE_AUDIO_MPEG_LAYER_I", MEDIA_MIMETYPE_AUDIO_MPEG_LAYER_I),
   ("MEDIA_MIMETYPE_AUDIO_MPEG_LAYER_II", MEDIA_MIMETYPE_AUDIO_MPEG_LAYER_II),
   ("MEDIA_MIMETYPE_AUDIO_MIDI", MEDIA_MIMETYPE_AUDIO_MIDI),
   ("MEDIA_MIMETYPE_AUDIO_AAC", MEDIA_MIMETYPE_AUDIO_AAC),
   ("MEDIA_MIMETYPE_AUDIO_QCELP", MEDIA_MIMETYPE_AUDIO_QCELP),
   ("MEDIA_MIMETYPE_AUDIO_VORBIS", MEDIA_MIMETYPE_AUDIO_VORBIS),
   ("MEDIA_MIMETYPE_AUDIO_OPUS", MEDIA_MIMETYPE_AUDIO_OPUS),
   ("MEDIA_MIMETYPE_AUDIO_G711_ALAW", MEDIA_MIMETYPE_AUDIO_G711_ALAW),
   ("MEDIA_MIMETYPE_AUDIO_G711_MLAW", MEDIA_MIMETYPE_AUDIO_G711_MLAW),
   ("MEDIA_MIMETYPE_AUDIO_RAW", MEDIA_MIMETYPE_AUDIO_RAW),
   ("MEDIA_MIMETYPE_AUDIO_ADPCM_IMA", MEDIA_MIMETYPE_AUDIO_ADPCM_IMA),
   ("MEDIA_MIMETYPE_AUDIO_ADPCM_MS", MEDIA_MIMETYPE_AUDIO_ADPCM_MS),
   ("MEDIA_MIMETYPE_AUDIO_FLAC", MEDIA_MIMETYPE_AUDIO_FLAC),
   ("MEDIA_MIMETYPE_AUDIO_AAC_ADTS", MEDIA_MIMETYPE_AUDIO_AAC_ADTS),
   ("MEDIA_MIMETYPE_AUDIO_ALAC", MEDIA_MIMETYPE_AUDIO_ALAC),
   ("MEDIA_MIMETYPE_AUDIO_AAC_ADIF", MEDIA_MIMETYPE_AUDIO_AAC_ADIF),
   ("MEDIA_MIMETYPE_AUDIO_AAC_LATM", MEDIA_MIMETYPE_AUDIO_AAC_LATM),
   ("MEDIA_MIMETYPE_AUDIO_ADTS_PROFILE", MEDIA_MIMETYPE_AUDIO_ADTS_PROFILE),
   ("MEDIA_MIMETYPE_AUDIO_WMA", MEDIA_MIMETYPE_AUDIO_WMA),
   ("MEDIA_MIMETYPE_AUDIO_WMAPRO", MEDIA_MIMETYPE_AUDIO_WMAPRO),
   ("MEDIA_MIMETYPE_AUDIO_DTSHD", MEDIA_MIMETYPE_AUDIO_DTSHD),
   ("MEDIA_MIMETYPE_AUDIO_MSGSM", MEDIA_MIMETYPE_AUDIO_MSGSM),
   ("MEDIA_MIMETYPE_AUDIO_AC3", MEDIA_MIMETYPE_AUDIO_AC3),
   ("MEDIA_MIMETYPE_AUDIO_EAC3", MEDIA_MIMETYPE_AUDIO_EAC3),
   ("MEDIA_MIMETYPE_AUDIO_TRUEHD", MEDIA_MIMETYPE_AUDIO_TRUEHD),
   ("MEDIA_MIMETYPE_AUDIO_EC3", MEDIA_MIMETYPE_AUDIO_EC3),
   ("MEDIA_MIMETYPE_AUDIO_APE", MEDIA_MIMETYPE_AUDIO_APE),
   ("MEDIA_MIMETYPE_AUDIO_FFMPEG", MEDIA_MIMETYPE_AUDIO_FFMPEG),
   ("MEDIA_MIMETYPE_CONTAINER_MPEG4", MEDIA_MIMETYPE_CONTAINER_MPEG4),
   ("MEDIA_MIMETYPE_CONTAINER_WAV", MEDIA_MIMETYPE_CONTAINER_WAV),
   ("MEDIA_MIMETYPE_CONTAINER_AIFF", MEDIA_MIMETYPE_CONTAINER_AIFF),
   ("MEDIA_MIMETYPE_CONTAINER_OGG", MEDIA_MIMETYPE_CONTAINER_OGG),
   ("MEDIA_MIMETYPE_CONTAINER_MATROSKA", MEDIA_MIMETYPE_CONTAINER_MATROSKA),
   ("MEDIA_MIMETYPE_CONTAINER_MPEG2TS", MEDIA_MIMETYPE_CONTAINER_MPEG2TS),
   ("MEDIA_MIMETYPE_CONTAINER_AVI", MEDIA_MIMETYPE_CONTAINER_AVI),
   ("MEDIA_MIMETYPE_CONTAINER_MPEG2PS", MEDIA_MIMETYPE_CONTAINER_MPEG2PS),
   ("MEDIA_MIMETYPE_CONTAINER_WVM", MEDIA_MIMETYPE_CONTAINER_WVM),
   ("MEDIA_MIMETYPE_TEXT_3GPP", MEDIA_MIMETYPE_TEXT_3GPP),
   ("MEDIA_MIMETYPE_TEXT_SUBRIP", MEDIA_MIMETYPE_TEXT_SUBRIP),
   ("MEDIA_MIMETYPE_TEXT_VTT", MEDIA_MIMETYPE_TEXT_VTT),
   ("MEDIA_MIMETYPE_TEXT_CEA_608", MEDIA_MIMETYPE_TEXT_CEA_608),
   ("MEDIA_MIMETYPE_CONTAINER_DDP", MEDIA_MIMETYPE_CONTAINER_DDP),
   ("MEDIA_MIMETYPE_DATA_TIMED_ID3", MEDIA_MIMETYPE_DATA_TIMED_ID3)]

/-! ## Collaborators of MediaExtractor::Create -/

/-- An `AMessage` of sniff-derived metadata; only its identity matters here. -/
structure AMessage where
  handle : Nat
  deriving DecidableEq, Repr

/-- What one sniffer call leaves behind: its boolean result and the values of
its three out-parameters after the call (a sniffer that does not write one
leaves the caller's initial value, `""`, `0` or `NULL`). -/
structure SniffResult where
  ok : Bool
  mime : CStr
  confidence : ℚ
  meta : Option AMessage
  deriving DecidableEq, Repr

/-- A `DataSource`: its identity and what `source->sniff` (`DataSource.h`)
answers when `MediaExtractor::Create` calls it. -/
structure DataSource where
  handle : Nat
  sniff : SniffResult
  deriving DecidableEq, Repr

/-- The `new` expressions of `MediaExtractor::Create`, with their arguments,
and `foreign` for an object built by the Amlogic library. -/
inductive Constructed where
  | MPEG4Extractor (source : DataSource)
  | MP3Extractor (source : DataSource) (meta : Option AMessage)
  | AMRExtractor (source : DataSource)
  | FLACExtractor (source : DataSource)
  | WAVExtractor (source : DataSource)
  | OggExtractor (source : DataSource)
  | MatroskaExtractor (source : DataSource)
  | MPEG2TSExtractor (source : DataSource)
  | WVMExtractor (source : DataSource)
  | AACExtractor (source : DataSource) (meta : Option AMessage)
  | MPEG2PSExtractor (source : DataSource)
  | MidiExtractor (source : DataSource)
  | DRMExtractor (source : DataSource) (mime : CStr)
  | foreign (tag : Nat)
  deriving DecidableEq, Repr

/-- A `MediaExtractor` object as far as `MediaExtractor::Create` can tell: how
it was built, and the last value given to `setDrmFlag` (`none` while
`setDrmFlag` has not been called on it). -/
structure MediaExtractor where
  built : Constructed
  drmFlag : Option Bool
  deriving DecidableEq, Repr

/-- The object a `new` expression yields: `setDrmFlag` not yet called. -/
def MediaExtractor.new (c : Constructed) : MediaExtractor := ⟨c, none⟩

/-- Modelled from the spec: the `setDrmFlag(bool)` member, declared in
`MediaExtractor.h`, the DRM-flag mutation every extractor supports; it records
the flag on the object. -/
def MediaExtractor.setDrmFlag (e : MediaExtractor) (flag : Bool) : MediaExtractor :=
  { e with drmFlag := some flag }

/-- The functions of `<media/amlogic/amExtratorSupport.h>`, present only when
`WITH_AMLOGIC_MEDIA_EX_SUPPORT` is defined. -/
structure AmlogicMediaExSupport where
  sniffFFmpegFormat : DataSource → SniffResult
  createFFmpegExtractor : DataSource → CStr → Option MediaExtractor
  createAmExExtractor : DataSource → CStr → Option AMessage → Option MediaExtractor

/-- A call that `MediaExtractor::Create` makes to a collaborator. -/
inductive Call where
  | sniff
  | sniffFFmpegFormat
  | createFFmpegExtractor (mime : CStr)
  | createAmExExtractor (mime : CStr) (meta : Option AMessage)
  deriving DecidableEq, Repr

/-- What a run of `MediaExtractor::Create` yields: the returned pointer
(`none` for `NULL`) and the collaborator calls it made, in order. -/
structure Outcome where
  ret : Option MediaExtractor
  calls : List Call
  deriving DecidableEq, Repr

/-! ## MediaExtractor.cpp -/

/-- The locals of `MediaExtractor::Create` that are live at line 102, when the
block `if (mime == NULL)` has not returned. -/
structure Detected where
  tmp : CStr
  confidence : ℚ
  meta : Option AMessage
  is_sniff_from_ffmpeg : Bool
  deriving DecidableEq, Repr

/-- Lines 68-72: `confidence` after the source's own sniff; a sniff that
reports failure counts as confidence 0, whatever it wrote. -/
def primaryConfidence (source : DataSource) : ℚ :=
  if !source.sniff.ok then 0 else source.sniff.confidence

/-- Lines 68-99, the body of `if (mime == NULL)`: the source sniffs itself
and, in the Amlogic build, the FFmpeg sniffer may be asked as well. `none` in
the first component is the `return NULL` of line 83 or line 97. -/
def autodetect (am : Option AmlogicMediaExSupport) (source : DataSource) :
    Option Detected × List Call :=
  let tmp := source.sniff.mime
  let meta := source.sniff.meta
  let confidence : ℚ := primaryConfidence source
  match am with
  | some ex =>
    if confidence < 0.8 ∨ strcmp tmp MEDIA_MIMETYPE_AUDIO_WMA = 0 then
      let ff := ex.sniffFFmpegFormat source
      if !ff.ok ∧ confidence ≤ 0 then
        (none, [Call.sniff, Call.sniffFFmpegFormat])
      else if confidence = 0 ∨ ff.confidence > confidence ∨
          (ff.confidence > 0 ∧ strcmp ff.mime tmp ≠ 0) then
        (some ⟨ff.mime, ff.confidence, meta, true⟩, [Call.sniff, Call.sniffFFmpegFormat])
      else
        (some ⟨tmp, confidence, meta, false⟩, [Call.sniff, Call.sniffFFmpegFormat])
    else
      (some ⟨tmp, confidence, meta, false⟩, [Call.sniff])
  | none =>
    if confidence = 0 then (none, [Call.sniff])
    else (some ⟨tmp, confidence, meta, false⟩, [Call.sniff])

/-- How the `if`/`else if` chain of lines 138-167 ends when `ret` is `NULL`
on entry: with the `return` of line 160, or by falling out of the chain with a
value for `ret`. -/
inductive TableStep where
  | returnNow (e : MediaExtractor)
  | assign (ret : Option MediaExtractor)
  deriving DecidableEq, Repr

/-- Lines 140-167: the dispatch table, tried in the order of the source. -/
def dispatchTable (source : DataSource) (meta : Option AMessage) (mime : CStr) : TableStep :=
  if strcasecmp mime MEDIA_MIMETYPE_CONTAINER_MPEG4 = 0
      ∨ strcasecmp mime "audio/mp4".toList = 0 then
    .assign (some (.new (.MPEG4Extractor source)))
  else if strcasecmp mime MEDIA_MIMETYPE_AUDIO_MPEG = 0 then
    .assign (some (.new (.MP3Extractor source meta)))
  else if strcasecmp mime MEDIA_MIMETYPE_AUDIO_AMR_NB = 0
      ∨ strcasecmp mime MEDIA_MIMETYPE_AUDIO_AMR_WB = 0 then
    .assign (some (.new (.AMRExtractor source)))
  else if strcasecmp mime MEDIA_MIMETYPE_AUDIO_FLAC = 0 then
    .assign (some (.new (.FLACExtractor source)))
  else if strcasecmp mime MEDIA_MIMETYPE_CONTAINER_WAV = 0 then
    .assign (some (.new (.WAVExtractor source)))
  else if strcasecmp mime MEDIA_MIMETYPE_CONTAINER_OGG = 0 then
    .assign (some (.new (.OggExtractor source)))
  else if strcasecmp mime MEDIA_MIMETYPE_CONTAINER_MATROSKA = 0 then
    .assign (some (.new (.MatroskaExtractor source)))
  else if strcasecmp mime MEDIA_MIMETYPE_CONTAINER_MPEG2TS = 0 then
    .assign (some (.new (.MPEG2TSExtractor source)))
  else if strcasecmp mime MEDIA_MIMETYPE_CONTAINER_WVM = 0 then
    .returnNow (.new (.WVMExtractor source))
  else if strcasecmp mime MEDIA_MIMETYPE_AUDIO_AAC_ADTS = 0 then
    .assign (some (.new (.AACExtractor source meta)))
  else if strcasecmp mime MEDIA_MIMETYPE_CONTAINER_MPEG2PS = 0 then
    .assign (some (.new (.MPEG2PSExtractor source)))
  else if strcasecmp mime MEDIA_MIMETYPE_AUDIO_MIDI = 0 then
    .assign (some (.new (.MidiExtractor source)))
  else
    .assign none

/-- Lines 176-184: `setDrmFlag(isDrm)` on a non-null `ret`, then `return ret`. -/
def finish (ret : Option MediaExtractor) (isDrm : Bool) (calls : List Call) : Outcome :=
  match ret with
  | some e => ⟨some (if isDrm then e.setDrmFlag true else e.setDrmFlag false), calls⟩
  | none => ⟨none, calls⟩

/-- Lines 168-184: in the Amlogic build a `ret` that is still `NULL` is
offered to `createAmExExtractor`; then the DRM flag is applied. -/
def fallbackAndFinish (am : Option AmlogicMediaExSupport) (source : DataSource)
    (meta : Option AMessage) (mime : CStr) (isDrm : Bool)
    (ret : Option MediaExtractor) (calls : List Call) : Outcome :=
  match am, ret with
  | some ex, none =>
    finish (ex.createAmExExtractor source mime meta) isDrm
      (calls ++ [Call.createAmExExtractor mime meta])
  | _, _ => finish ret isDrm calls

/-- Lines 129-185: `createFFmpegExtractor` first when the identifier came from
the FFmpeg sniffer (Amlogic build), else the dispatch table, then the
`createAmExExtractor` fallback and the DRM flag. -/
def dispatch (am : Option AmlogicMediaExSupport) (source : DataSource)
    (meta : Option AMessage) (is_sniff_from_ffmpeg : Bool) (mime : CStr) (isDrm : Bool)
    (calls : List Call) : Outcome :=
  let first : Option MediaExtractor × List Call :=
    match am with
    | some ex =>
      if is_sniff_from_ffmpeg then
        (ex.createFFmpegExtractor source mime, calls ++ [Call.createFFmpegExtractor mime])
      else (none, calls)
    | none => (none, calls)
  match first.1 with
  | some e => fallbackAndFinish am source meta mime isDrm (some e) first.2
  | none =>
    match dispatchTable source meta mime with
    | .returnNow e => ⟨some e, first.2⟩
    | .assign ret => fallbackAndFinish am source meta mime isDrm ret first.2

/-- Lines 107-185: the DRM MIME type syntax `drm+type+original`, then dispatch. -/
def unwrapAndDispatch (am : Option AmlogicMediaExSupport) (source : DataSource)
    (meta : Option AMessage) (is_sniff_from_ffmpeg : Bool) (mime : CStr)
    (calls : List Call) : Outcome :=
  if strncmp mime "drm+".toList 4 = 0 then
    match strchr (mime.drop 4) '+' with
    | none => ⟨none, calls⟩
    | some p =>
      let originalMime := p.drop 1
      if strncmp mime "drm+es_based+".toList 13 = 0 then
        ⟨some (.new (.DRMExtractor source originalMime)), calls⟩
      else if strncmp mime "drm+container_based+".toList 20 = 0 then
        dispatch am source meta is_sniff_from_ffmpeg originalMime true calls
      else
        ⟨none, calls⟩
  else
    dispatch am source meta is_sniff_from_ffmpeg mime false calls

/-- `MediaExtractor::Create(source, mime)`, lines 60-185. `am` is `some` in
the build with `WITH_AMLOGIC_MEDIA_EX_SUPPORT`; `mime = none` is `mime == NULL`. -/
def MediaExtractor.Create (am : Option AmlogicMediaExSupport) (source : DataSource)
    (mime : Option CStr) : Outcome :=
  match mime with
  | some m => unwrapAndDispatch am source none false m []
  | none =>
    match autodetect am source with
    | (none, calls) => ⟨none, calls⟩
    | (some d, calls) => unwrapAndDispatch am source d.meta d.is_sniff_from_ffmpeg d.tmp calls

/-- The identifiers the dispatch table of lines 140-165 compares `mime` with,
in the order of the source. -/
def dispatchIdentifiers : List CStr :=
  [MEDIA_MIMETYPE_CONTAINER_MPEG4, "audio/mp4".toList, MEDIA_MIMETYPE_AUDIO_MPEG,
   MEDIA_MIMETYPE_AUDIO_AMR_NB, MEDIA_MIMETYPE_AUDIO_AMR_WB, MEDIA_MIMETYPE_AUDIO_FLAC,
   MEDIA_MIMETYPE_CONTAINER_WAV, MEDIA_MIMETYPE_CONTAINER_OGG,
   MEDIA_MIMETYPE_CONTAINER_MATROSKA, MEDIA_MIMETYPE_CONTAINER_MPEG2TS,
   MEDIA_MIMETYPE_CONTAINER_WVM, MEDIA_MIMETYPE_AUDIO_AAC_ADTS,
   MEDIA_MIMETYPE_CONTAINER_MPEG2PS, MEDIA_MIMETYPE_AUDIO_MIDI]

/-- A data source whose own sniffer recognises nothing. -/
def silentSource : DataSource := ⟨0, ⟨false, [], 0, none⟩⟩

/-- A data source that recognises itself as `mime` with the given confidence. -/
def sourceOf (mime : CStr) (confidence : ℚ) : DataSource := ⟨1, ⟨true, mime, confidence, none⟩⟩

/-- An Amlogic library whose sniffer answers `r` for every source and whose
two factories build nothing. -/
def sniffingOnly (r : SniffResult) : AmlogicMediaExSupport :=
  { sniffFFmpegFormat := fun _ => r
    createFFmpegExtractor := fun _ _ => none
    createAmExExtractor := fun _ _ _ => none }

/-- The pairs of names of a registry, in its order, that carry the same string. -/
def aliasedNames : List (String × CStr) → List (String × String)
  | [] => []
  | (n, v) :: rest =>
    ((rest.filter (fun e => decide (e.2 = v))).map (fun e => (n, e.1))) ++ aliasedNames rest

/-- `MediaExtractor::flags()`, lines 54-56. The four enumerators are declared in
`MediaExtractor.h` and are taken as parameters; the result is a `uint32_t`. -/
def MediaExtractor.flags (CAN_SEEK_BACKWARD CAN_SEEK_FORWARD CAN_PAUSE CAN_SEEK : Nat) : Nat :=
  (CAN_SEEK_BACKWARD ||| CAN_SEEK_FORWARD ||| CAN_PAUSE ||| CAN_SEEK) % 2 ^ 32

/-- The class of an extractor object. -/
inductive ExtractorType where
  | MPEG4Extractor | MP3Extractor | AMRExtractor | FLACExtractor | WAVExtractor
  | OggExtractor | MatroskaExtractor | MPEG2TSExtractor | WVMExtractor | AACExtractor
  | MPEG2PSExtractor | MidiExtractor | DRMExtractor
  | foreign (tag : Nat)
  deriving DecidableEq, Repr

/-- The class of the object a `new` expression or a factory built. -/
def Constructed.type : Constructed → ExtractorType
  | .MPEG4Extractor _ => .MPEG4Extractor
  | .MP3Extractor _ _ => .MP3Extractor
  | .AMRExtractor _ => .AMRExtractor
  | .FLACExtractor _ => .FLACExtractor
  | .WAVExtractor _ => .WAVExtractor
  | .OggExtractor _ => .OggExtractor
  | .MatroskaExtractor _ => .MatroskaExtractor
  | .MPEG2TSExtractor _ => .MPEG2TSExtractor
  | .WVMExtractor _ => .WVMExtractor
  | .AACExtractor _ _ => .AACExtractor
  | .MPEG2PSExtractor _ => .MPEG2PSExtractor
  | .MidiExtractor _ => .MidiExtractor
  | .DRMExtractor _ _ => .DRMExtractor
  | .foreign tag => .foreign tag

/-- What a caller sees of an outcome without looking at the source: failure,
or the class of the extractor and its DRM flag. -/
def Outcome.summary (o : Outcome) : Option (ExtractorType × Option Bool) :=
  o.ret.map (fun e => (e.built.type, e.drmFlag))

/-- An Amlogic library whose sniffer answers `r` for every source and whose
`createFFmpegExtractor` builds an extractor of its own for every identifier. -/
def ffmpegLibrary (r : SniffResult) : AmlogicMediaExSupport :=
  { sniffFFmpegFormat := fun _ => r
    createFFmpegExtractor := fun _ _ => some ⟨.foreign 0, none⟩
    createAmExExtractor := fun _ _ _ => none }

/-- An Amlogic library whose `createAmExExtractor` builds an extractor for the
source with handle 1 and for no other source. -/
def selectiveLibrary : AmlogicMediaExSupport :=
  { sniffFFmpegFormat := fun _ => ⟨false, [], 0, none⟩
    createFFmpegExtractor := fun _ _ => none
    createAmExExtractor := fun source _ _ =>
      if source.handle = 1 then some ⟨.foreign 1, none⟩ else none }


/-- What a step of the dispatch table shows without the source: whether it is
the early return, and the class and DRM flag of the extractor, if any. -/
def TableStep.summary : TableStep → Bool × Option (ExtractorType × Option Bool)
  | .returnNow e => (true, some (e.built.type, e.drmFlag))
  | .assign ret => (false, ret.map (fun e => (e.built.type, e.drmFlag)))


end android

namespace android

/-! ## Facts about the embedded C string functions -/

theorem toNat_injective {a b : Char} (h : a.toNat = b.toNat) : a = b := by
  rw [← Char.ofNat_toNat a, ← Char.ofNat_toNat b, h]

theorem toNat_tolower (c : Char) :
    (tolower c).toNat = if 65 ≤ c.toNat ∧ c.toNat ≤ 90 then c.toNat + 32 else c.toNat := by
  unfold tolower
  split
  · rename_i h
    obtain ⟨h1, h2⟩ := h
    generalize hk : c.toNat = k at h1 h2 ⊢
    interval_cases k <;> rfl
  · rfl

theorem tolower_eq_iff (a b : Char) : tolower a = tolower b ↔ sameLetter a b = true := by
  have ha := toNat_tolower a
  have hb := toNat_tolower b
  have hab : a = b ↔ a.toNat = b.toNat := ⟨fun h => by rw [h], toNat_injective⟩
  constructor
  · intro h
    rw [h] at ha
    simp only [sameLetter, Bool.or_eq_true, Bool.and_eq_true, beq_iff_eq, decide_eq_true_eq, hab]
    split_ifs at ha hb <;> omega
  · intro h
    apply toNat_injective
    simp only [sameLetter, Bool.or_eq_true, Bool.and_eq_true, beq_iff_eq, decide_eq_true_eq, hab] at h
    split_ifs at ha hb <;> omega

theorem strcasecmp_eq_zero_iff (a b : CStr) :
    strcasecmp a b = 0 ↔ a.map tolower = b.map tolower := by
  induction a generalizing b with
  | nil => cases b <;> simp [strcasecmp]
  | cons x xs ih =>
    cases b with
    | nil => simp [strcasecmp]
    | cons y ys =>
      by_cases h : tolower x = tolower y
      · simp [strcasecmp, h, ih]
      · simp only [strcasecmp, h, if_false, List.map_cons, List.cons.injEq, false_and, iff_false]
        split <;> decide

theorem eqUpToAsciiCase_iff (a b : CStr) :
    eqUpToAsciiCase a b = true ↔ a.map tolower = b.map tolower := by
  induction a generalizing b with
  | nil => cases b <;> simp [eqUpToAsciiCase]
  | cons x xs ih =>
    cases b with
    | nil => simp [eqUpToAsciiCase]
    | cons y ys => simp [eqUpToAsciiCase, ih, tolower_eq_iff]

theorem strcmp_eq_zero_iff (a b : CStr) : strcmp a b = 0 ↔ a = b := by
  induction a generalizing b with
  | nil => cases b <;> simp [strcmp]
  | cons x xs ih =>
    cases b with
    | nil => simp [strcmp]
    | cons y ys =>
      by_cases h : x = y
      · simp [strcmp, h, ih]
      · simp only [strcmp, h, if_false, List.cons.injEq, false_and, iff_false]
        split <;> decide

theorem strncmp_eq_zero_iff (s p : CStr) (n : Nat) :
    strncmp s p n = 0 ↔ s.take n = p.take n := by
  induction n generalizing s p with
  | zero => simp [strncmp]
  | succ n ih =>
    cases s with
    | nil => cases p <;> simp [strncmp]
    | cons x xs =>
      cases p with
      | nil => simp [strncmp]
      | cons y ys =>
        by_cases h : x = y
        · simp [strncmp, h, ih]
        · simp only [strncmp, h, if_false, List.take_succ_cons, List.cons.injEq, false_and,
            iff_false]
          split <;> decide

theorem strncmp_literal (s p : CStr) : strncmp s p p.length = 0 ↔ p <+: s := by
  rw [strncmp_eq_zero_iff, List.take_length, List.prefix_iff_eq_take, eq_comm]

theorem strchr_of_not_mem (s : CStr) (c : Char) (h : c ∉ s) : strchr s c = none := by
  induction s with
  | nil => rfl
  | cons x xs ih =>
    simp only [List.mem_cons, not_or] at h
    simp [strchr, Ne.symm h.1, ih h.2]

theorem strchr_append (m rest : CStr) (c : Char) (h : c ∉ m) :
    strchr (m ++ c :: rest) c = some (c :: rest) := by
  induction m with
  | nil => simp [strchr]
  | cons x xs ih =>
    simp only [List.mem_cons, not_or] at h
    simp [strchr, Ne.symm h.1, ih h.2]

/-! ## Facts about the stages of MediaExtractor::Create -/

theorem dispatchTable_congr (source : DataSource) (meta : Option AMessage) (s t : CStr)
    (h : s.map tolower = t.map tolower) :
    dispatchTable source meta s = dispatchTable source meta t := by
  simp only [dispatchTable, strcasecmp_eq_zero_iff, h]

/-- With an identifier that did not come from the FFmpeg sniffer, a table
entry that assigns `ret` decides the outcome. -/
theorem dispatch_of_assign (am : Option AmlogicMediaExSupport) (source : DataSource)
    (meta : Option AMessage) (mime : CStr) (isDrm : Bool) (calls : List Call)
    (e : MediaExtractor) (h : dispatchTable source meta mime = .assign (some e)) :
    dispatch am source meta false mime isDrm calls = ⟨some (e.setDrmFlag isDrm), calls⟩ := by
  cases am <;> cases isDrm <;> simp [dispatch, h, fallbackAndFinish, finish]

/-- With an identifier that did not come from the FFmpeg sniffer, the table
entry that returns at once decides the outcome. -/
theorem dispatch_of_returnNow (am : Option AmlogicMediaExSupport) (source : DataSource)
    (meta : Option AMessage) (mime : CStr) (isDrm : Bool) (calls : List Call)
    (e : MediaExtractor) (h : dispatchTable source meta mime = .returnNow e) :
    dispatch am source meta false mime isDrm calls = ⟨some e, calls⟩ := by
  cases am <;> simp [dispatch, h]

/-- A string that is not a `drm+` identifier goes to dispatch unchanged. -/
theorem unwrapAndDispatch_of_not_drm (am : Option AmlogicMediaExSupport) (source : DataSource)
    (meta : Option AMessage) (ff : Bool) (mime : CStr) (calls : List Call)
    (h : ¬ "drm+".toList <+: mime) :
    unwrapAndDispatch am source meta ff mime calls
      = dispatch am source meta ff mime false calls := by
  have h4 : strncmp mime "drm+".toList 4 ≠ 0 := fun h0 => h ((strncmp_literal mime _).1 h0)
  unfold unwrapAndDispatch
  rw [if_neg h4]

theorem not_drm_of_dispatchIdentifier (s id : CStr) (hid : id ∈ dispatchIdentifiers)
    (h : s.map tolower = id.map tolower) : ¬ "drm+".toList <+: s := by
  intro hp
  have h1 : (s.map tolower).take 4 = "drm+".toList := by
    obtain ⟨r, rfl⟩ := hp
    rfl
  rw [h] at h1
  revert h1
  simp only [dispatchIdentifiers, List.mem_cons, List.mem_singleton, List.not_mem_nil,
    or_false] at hid
  rcases hid with rfl | rfl | rfl | rfl | rfl | rfl | rfl | rfl | rfl | rfl | rfl | rfl | rfl | rfl
    <;> decide

theorem dispatchTable_of_identifier (source : DataSource) (meta : Option AMessage) (id : CStr)
    (hid : id ∈ dispatchIdentifiers) :
    (∃ e, dispatchTable source meta id = .assign (some e))
      ∨ (∃ e, dispatchTable source meta id = .returnNow e) := by
  simp only [dispatchIdentifiers, List.mem_cons, List.mem_singleton, List.not_mem_nil,
    or_false] at hid
  rcases hid with rfl | rfl | rfl | rfl | rfl | rfl | rfl | rfl | rfl | rfl | rfl | rfl | rfl | rfl
  case inr.inr.inr.inr.inr.inr.inr.inr.inr.inr.inl => exact Or.inr ⟨_, rfl⟩
  all_goals exact Or.inl ⟨_, rfl⟩

/-! ## Facts about the DRM identifier syntax -/

/-- A token without `+`, followed by `+`, starts `mode ++ "+" ++ rest` only
when it is `mode`, if `mode` has no `+` either. -/
theorem token_prefix_iff (tok mode rest : CStr) (ht : '+' ∉ tok) (hm : '+' ∉ mode) :
    tok ++ ['+'] <+: mode ++ '+' :: rest ↔ tok = mode := by
  induction tok generalizing mode with
  | nil =>
    cases mode with
    | nil => simp
    | cons m ms =>
      simp only [List.mem_cons, not_or] at hm
      simp [hm.1]
  | cons t ts ih =>
    simp only [List.mem_cons, not_or] at ht
    cases mode with
    | nil => simp [Ne.symm ht.1]
    | cons m ms =>
      simp only [List.mem_cons, not_or] at hm
      simp [List.cons_prefix_cons, ih ms ht.2 hm.2]

/-- Lines 107-127 on an identifier `drm+<mode>+<rest>` whose mode has no `+`. -/
theorem unwrapAndDispatch_drm (am : Option AmlogicMediaExSupport) (source : DataSource)
    (meta : Option AMessage) (ff : Bool) (mode rest : CStr) (calls : List Call)
    (hm : '+' ∉ mode) :
    unwrapAndDispatch am source meta ff ("drm+".toList ++ mode ++ '+' :: rest) calls
      = if mode = "es_based".toList then
          ⟨some (.new (.DRMExtractor source rest)), calls⟩
        else if mode = "container_based".toList then
          dispatch am source meta ff rest true calls
        else ⟨none, calls⟩ := by
  have h4 : strncmp ("drm+".toList ++ mode ++ '+' :: rest) "drm+".toList 4 = 0 := by
    rw [show (4 : Nat) = ("drm+".toList).length from rfl, strncmp_literal, List.append_assoc]
    exact List.prefix_append _ _
  have hdrop : ("drm+".toList ++ mode ++ '+' :: rest).drop 4 = mode ++ '+' :: rest := by
    rw [List.append_assoc]
    rfl
  have hes : strncmp ("drm+".toList ++ mode ++ '+' :: rest) "drm+es_based+".toList 13 = 0
      ↔ mode = "es_based".toList := by
    rw [show (13 : Nat) = ("drm+es_based+".toList).length from rfl, strncmp_literal,
      List.append_assoc,
      show "drm+es_based+".toList = "drm+".toList ++ ("es_based".toList ++ ['+']) from rfl,
      List.prefix_append_right_inj, token_prefix_iff _ _ _ (by decide) hm, eq_comm]
  have hcb : strncmp ("drm+".toList ++ mode ++ '+' :: rest) "drm+container_based+".toList 20 = 0
      ↔ mode = "container_based".toList := by
    rw [show (20 : Nat) = ("drm+container_based+".toList).length from rfl, strncmp_literal,
      List.append_assoc,
      show "drm+container_based+".toList
        = "drm+".toList ++ ("container_based".toList ++ ['+']) from rfl,
      List.prefix_append_right_inj, token_prefix_iff _ _ _ (by decide) hm, eq_comm]
  unfold unwrapAndDispatch
  rw [if_pos h4, hdrop, strchr_append mode rest '+' hm]
  simp only [List.drop_succ_cons, List.drop_zero, hes, hcb]

/-- Lines 111-116 on an identifier `drm+<r>` where `r` has no `+`. -/
theorem unwrapAndDispatch_no_second_plus (am : Option AmlogicMediaExSupport)
    (source : DataSource) (meta : Option AMessage) (ff : Bool) (r : CStr) (calls : List Call)
    (hr : '+' ∉ r) :
    unwrapAndDispatch am source meta ff ("drm+".toList ++ r) calls = ⟨none, calls⟩ := by
  have h4 : strncmp ("drm+".toList ++ r) "drm+".toList 4 = 0 := by
    rw [show (4 : Nat) = ("drm+".toList).length from rfl, strncmp_literal]
    exact List.prefix_append _ _
  have hdrop : ("drm+".toList ++ r).drop 4 = r := rfl
  unfold unwrapAndDispatch
  rw [if_pos h4, hdrop, strchr_of_not_mem r '+' hr]

/-! ## Facts about the DRM flag -/

theorem dispatchTable_wvm (source : DataSource) (meta : Option AMessage) (mime : CStr)
    (h : eqUpToAsciiCase mime "video/wvm".toList = true) :
    dispatchTable source meta mime = .returnNow (.new (.WVMExtractor source)) := by
  rw [dispatchTable_congr source meta mime "video/wvm".toList ((eqUpToAsciiCase_iff _ _).1 h)]
  rfl

theorem ite_assign {c : Prop} [Decidable c] {a b : TableStep}
    (ha : ∃ r, a = TableStep.assign r) (hb : ∃ r, b = TableStep.assign r) :
    ∃ r, (if c then a else b) = TableStep.assign r := by
  by_cases hc : c
  · rw [if_pos hc]; exact ha
  · rw [if_neg hc]; exact hb

theorem ite_assign_neg {c : Prop} [Decidable c] {a b : TableStep}
    (hc : ¬ c) (hb : ∃ r, b = TableStep.assign r) :
    ∃ r, (if c then a else b) = TableStep.assign r := by
  rw [if_neg hc]; exact hb

theorem dispatchTable_not_wvm (source : DataSource) (meta : Option AMessage) (mime : CStr)
    (h : eqUpToAsciiCase mime "video/wvm".toList = false) :
    ∃ ret, dispatchTable source meta mime = .assign ret := by
  have hw : ¬ strcasecmp mime MEDIA_MIMETYPE_CONTAINER_WVM = 0 := by
    intro h0
    rw [strcasecmp_eq_zero_iff] at h0
    rw [(eqUpToAsciiCase_iff mime "video/wvm".toList).2 h0] at h
    exact Bool.noConfusion h
  unfold dispatchTable
  iterate 8 apply ite_assign ⟨_, rfl⟩
  apply ite_assign_neg hw
  iterate 3 apply ite_assign ⟨_, rfl⟩
  exact ⟨_, rfl⟩

/-- With an identifier that did not come from the FFmpeg sniffer and a table
that falls through with a value for `ret`, `isDrm` decides nothing but the
argument of `setDrmFlag`. -/
theorem dispatch_flag (am : Option AmlogicMediaExSupport) (source : DataSource)
    (meta : Option AMessage) (mime : CStr) (calls : List Call) (ret : Option MediaExtractor)
    (h : dispatchTable source meta mime = .assign ret) :
    ∃ (r : Option MediaExtractor) (cs : List Call), ∀ isDrm : Bool,
      dispatch am source meta false mime isDrm calls
        = ⟨r.map (fun e => e.setDrmFlag isDrm), cs⟩ := by
  cases am with
  | none =>
    refine ⟨ret, calls, fun isDrm => ?_⟩
    cases ret <;> cases isDrm <;> simp [dispatch, h, fallbackAndFinish, finish]
  | some ex =>
    cases ret with
    | some e =>
      refine ⟨some e, calls, fun isDrm => ?_⟩
      cases isDrm <;> simp [dispatch, h, fallbackAndFinish, finish]
    | none =>
      refine ⟨ex.createAmExExtractor source mime meta,
        calls ++ [Call.createAmExExtractor mime meta], fun isDrm => ?_⟩
      cases hx : ex.createAmExExtractor source mime meta <;> cases isDrm <;>
        simp [dispatch, h, fallbackAndFinish, finish, hx]

/-! ## Facts about the collaborator calls -/

theorem finish_calls (ret : Option MediaExtractor) (isDrm : Bool) (calls : List Call) :
    (finish ret isDrm calls).calls = calls := by
  cases ret <;> rfl

theorem fallbackAndFinish_calls (am : Option AmlogicMediaExSupport) (source : DataSource)
    (meta : Option AMessage) (mime : CStr) (isDrm : Bool) (ret : Option MediaExtractor)
    (calls : List Call) :
    Call.sniffFFmpegFormat ∈ (fallbackAndFinish am source meta mime isDrm ret calls).calls
      ↔ Call.sniffFFmpegFormat ∈ calls := by
  cases am <;> cases ret <;> simp [fallbackAndFinish, finish_calls]

theorem dispatch_calls (am : Option AmlogicMediaExSupport) (source : DataSource)
    (meta : Option AMessage) (ff : Bool) (mime : CStr) (isDrm : Bool) (calls : List Call) :
    Call.sniffFFmpegFormat ∈ (dispatch am source meta ff mime isDrm calls).calls
      ↔ Call.sniffFFmpegFormat ∈ calls := by
  unfold dispatch
  cases am with
  | none =>
    simp only
    cases dispatchTable source meta mime <;> simp [fallbackAndFinish_calls]
  | some ex =>
    cases ff
    · simp only [Bool.false_eq_true, if_false]
      cases dispatchTable source meta mime <;> simp [fallbackAndFinish_calls]
    · simp only [if_true]
      cases ex.createFFmpegExtractor source mime
      · simp only
        cases dispatchTable source meta mime <;> simp [fallbackAndFinish_calls]
      · simp [fallbackAndFinish_calls]

/-- Nothing after line 105 calls the FFmpeg sniffer. -/
theorem unwrapAndDispatch_calls (am : Option AmlogicMediaExSupport) (source : DataSource)
    (meta : Option AMessage) (ff : Bool) (mime : CStr) (calls : List Call) :
    Call.sniffFFmpegFormat ∈ (unwrapAndDispatch am source meta ff mime calls).calls
      ↔ Call.sniffFFmpegFormat ∈ calls := by
  unfold unwrapAndDispatch
  split
  · split
    · rfl
    · simp only
      split
      · rfl
      · split
        · exact dispatch_calls _ _ _ _ _ _ _
        · rfl
  · exact dispatch_calls _ _ _ _ _ _ _

/-- The sniffing block asks the FFmpeg sniffer exactly under the condition of
lines 74-75. -/
theorem autodetect_calls (ex : AmlogicMediaExSupport) (source : DataSource) :
    Call.sniffFFmpegFormat ∈ (autodetect (some ex) source).2
      ↔ (primaryConfidence source < 0.8 ∨ source.sniff.mime = MEDIA_MIMETYPE_AUDIO_WMA) := by
  unfold autodetect
  simp only [strcmp_eq_zero_iff]
  split
  · rename_i h
    simp only [h, iff_true]
    split
    · simp
    · split <;> simp
  · rename_i h
    simp [h]

/-- Without an explicit format `MediaExtractor::Create` is the sniffing block
followed, unless it returned, by lines 107-185 on what it detected. -/
theorem Create_of_autodetect (am : Option AmlogicMediaExSupport) (source : DataSource)
    (d : Detected) (calls : List Call) (h : autodetect am source = (some d, calls)) :
    MediaExtractor.Create am source none
      = unwrapAndDispatch am source d.meta d.is_sniff_from_ffmpeg d.tmp calls := by
  simp only [MediaExtractor.Create, h]

theorem Create_of_autodetect_none (am : Option AmlogicMediaExSupport) (source : DataSource)
    (calls : List Call) (h : autodetect am source = (none, calls)) :
    MediaExtractor.Create am source none = ⟨none, calls⟩ := by
  simp only [MediaExtractor.Create, h]

/-- Without an explicit format, the FFmpeg sniffer is among the calls of
`MediaExtractor::Create` exactly when the sniffing block called it. -/
theorem Create_calls_sniffFFmpegFormat (ex : AmlogicMediaExSupport) (source : DataSource) :
    Call.sniffFFmpegFormat ∈ (MediaExtractor.Create (some ex) source none).calls
      ↔ Call.sniffFFmpegFormat ∈ (autodetect (some ex) source).2 := by
  rcases h : autodetect (some ex) source with ⟨_ | d, calls⟩
  · rw [Create_of_autodetect_none _ _ _ h]
  · rw [Create_of_autodetect _ _ _ _ h, unwrapAndDispatch_calls]

/-! ## Facts about `float` confidences -/

/-- A `float` is `m * 2 ^ e` with `|m| < 2 ^ 24`. In `confidence < 0.8` the
`float` is compared with the `double` nearest to 0.8, which is
3602879701896397 / 2 ^ 52; for a `float` that is the same as being below 0.8. -/
theorem float32_lt_double_literal (m e : ℤ) (hm : |m| < 2 ^ 24) :
    ((m : ℚ) * 2 ^ e < 3602879701896397 / 4503599627370496) ↔ ((m : ℚ) * 2 ^ e < 0.8) := by
  constructor
  · intro h
    by_contra hge
    push_neg at hge
    rcases le_or_lt (-24) e with he | he
    · obtain ⟨n, hn⟩ : ∃ n : ℕ, e = (n : ℤ) - 24 := ⟨(e + 24).toNat, by omega⟩
      subst hn
      rw [zpow_sub₀ (by norm_num), zpow_natCast] at h hge
      have hk : ((m * 2 ^ n : ℤ) : ℚ) = (m : ℚ) * 2 ^ n := by push_cast; ring
      have h1 : ((m * 2 ^ n : ℤ) : ℚ) * 268435456 < 3602879701896397 := by
        rw [hk]
        norm_num at h
        linarith
      have h2 : (67108864 : ℚ) ≤ 5 * ((m * 2 ^ n : ℤ) : ℚ) := by
        rw [hk]
        norm_num at hge
        linarith
      have h1' : (m * 2 ^ n : ℤ) * 268435456 < 3602879701896397 := by exact_mod_cast h1
      have h2' : (67108864 : ℤ) ≤ 5 * (m * 2 ^ n : ℤ) := by exact_mod_cast h2
      omega
    · have hm' : (m : ℚ) < 2 ^ 24 := by exact_mod_cast (abs_lt.1 hm).2
      have hpow : (2 : ℚ) ^ e ≤ 2 ^ (-25 : ℤ) := zpow_le_zpow_right₀ (by norm_num) (by omega)
      have hpos : (0 : ℚ) < 2 ^ e := zpow_pos (by norm_num) e
      have : (m : ℚ) * 2 ^ e < 0.8 := by
        rcases le_or_lt m 0 with hm0 | hm0
        · have : (m : ℚ) ≤ 0 := by exact_mod_cast hm0
          have := mul_nonpos_of_nonpos_of_nonneg this hpos.le
          norm_num
          linarith
        · have hm0' : (0 : ℚ) < m := by exact_mod_cast hm0
          calc (m : ℚ) * 2 ^ e ≤ m * 2 ^ (-25 : ℤ) := by
                apply mul_le_mul_of_nonneg_left hpow hm0'.le
            _ < 2 ^ 24 * 2 ^ (-25 : ℤ) := by
                apply mul_lt_mul_of_pos_right hm' (by norm_num)
            _ < 0.8 := by norm_num
      exact absurd this (not_lt.2 hge)
  · intro h
    refine lt_trans h ?_
    norm_num

/-! ## Facts about the order of the factories and the table -/

/-- When `createFFmpegExtractor` is not asked, or builds nothing, a table
entry that assigns `ret` decides what is returned, and `createAmExExtractor`
is not asked. -/
theorem dispatch_ret_of_assign (am : Option AmlogicMediaExSupport) (source : DataSource)
    (meta : Option AMessage) (ff : Bool) (mime : CStr) (isDrm : Bool) (calls : List Call)
    (e : MediaExtractor)
    (hff : ff = false ∨ ∀ ex, am = some ex → ex.createFFmpegExtractor source mime = none)
    (h : dispatchTable source meta mime = .assign (some e)) :
    (dispatch am source meta ff mime isDrm calls).ret = some (e.setDrmFlag isDrm)
      ∧ ((dispatch am source meta ff mime isDrm calls).calls = calls
          ∨ (dispatch am source meta ff mime isDrm calls).calls
              = calls ++ [Call.createFFmpegExtractor mime]) := by
  cases am with
  | none => cases isDrm <;> simp [dispatch, h, fallbackAndFinish, finish]
  | some ex =>
    cases ff with
    | false => cases isDrm <;> simp [dispatch, h, fallbackAndFinish, finish]
    | true =>
      have hnone := hff.resolve_left (by simp) ex rfl
      cases isDrm <;> simp [dispatch, h, hnone, fallbackAndFinish, finish]

/-- When `createFFmpegExtractor` is not asked, or builds nothing, the table
entry that returns at once decides what is returned. -/
theorem dispatch_ret_of_returnNow (am : Option AmlogicMediaExSupport) (source : DataSource)
    (meta : Option AMessage) (ff : Bool) (mime : CStr) (isDrm : Bool) (calls : List Call)
    (e : MediaExtractor)
    (hff : ff = false ∨ ∀ ex, am = some ex → ex.createFFmpegExtractor source mime = none)
    (h : dispatchTable source meta mime = .returnNow e) :
    (dispatch am source meta ff mime isDrm calls).ret = some e
      ∧ ((dispatch am source meta ff mime isDrm calls).calls = calls
          ∨ (dispatch am source meta ff mime isDrm calls).calls
              = calls ++ [Call.createFFmpegExtractor mime]) := by
  cases am with
  | none => simp [dispatch, h]
  | some ex =>
    cases ff with
    | false => simp [dispatch, h]
    | true =>
      have hnone := hff.resolve_left (by simp) ex rfl
      simp [dispatch, h, hnone]


/-- For an identifier of the dispatch table, up to case, what is returned does
not depend on the build, nor on the calls made before, when
`createFFmpegExtractor` is not asked or builds nothing. -/
theorem dispatch_ret_of_identifier (am : Option AmlogicMediaExSupport) (source : DataSource)
    (meta : Option AMessage) (ff : Bool) (mime id : CStr) (isDrm : Bool)
    (calls calls' : List Call) (hid : id ∈ dispatchIdentifiers)
    (hl : mime.map tolower = id.map tolower)
    (hff : ff = false ∨ ∀ ex, am = some ex → ex.createFFmpegExtractor source mime = none) :
    (dispatch am source meta ff mime isDrm calls).ret
      = (dispatch none source meta false mime isDrm calls').ret := by
  have ht := dispatchTable_congr source meta mime id hl
  rcases dispatchTable_of_identifier source meta id hid with ⟨e, he⟩ | ⟨e, he⟩
  · rw [(dispatch_ret_of_assign am source meta ff mime isDrm calls e hff (ht.trans he)).1,
      (dispatch_ret_of_assign none source meta false mime isDrm calls' e (Or.inl rfl)
        (ht.trans he)).1]
  · rw [(dispatch_ret_of_returnNow am source meta ff mime isDrm calls e hff (ht.trans he)).1,
      (dispatch_ret_of_returnNow none source meta false mime isDrm calls' e (Or.inl rfl)
        (ht.trans he)).1]

/-- The sniffing block when the FFmpeg sniffer reports confidence 0 against a
positive primary confidence: the primary result stands. -/
theorem autodetect_secondary_failed (ex : AmlogicMediaExSupport) (source : DataSource)
    (hpos : 0 < primaryConfidence source)
    (hc : (ex.sniffFFmpegFormat source).confidence = 0) :
    ∃ calls, autodetect (some ex) source
      = (some ⟨source.sniff.mime, primaryConfidence source, source.sniff.meta, false⟩, calls)
      ∧ ∀ c ∈ calls, c = Call.sniff ∨ c = Call.sniffFFmpegFormat := by
  by_cases htrig : primaryConfidence source < 0.8
      ∨ source.sniff.mime = MEDIA_MIMETYPE_AUDIO_WMA
  · refine ⟨[Call.sniff, Call.sniffFFmpegFormat], ?_, by simp⟩
    unfold autodetect
    simp only [strcmp_eq_zero_iff, ne_eq]
    rw [if_pos htrig, if_neg (fun h => absurd hpos (not_lt.2 h.2)), if_neg]
    rw [hc]
    simp [ne_of_gt hpos, not_lt.2 hpos.le]
  · refine ⟨[Call.sniff], ?_, by simp⟩
    unfold autodetect
    simp only [strcmp_eq_zero_iff, ne_eq]
    rw [if_neg htrig]


/-- An identifier that equals no identifier of the dispatch table, even up to
case, falls out of the table with `ret` still `NULL`. -/
theorem dispatchTable_of_no_identifier (source : DataSource) (meta : Option AMessage)
    (mime : CStr) (hno : ∀ id ∈ dispatchIdentifiers, eqUpToAsciiCase mime id = false) :
    dispatchTable source meta mime = .assign none := by
  have hneg : ∀ id ∈ dispatchIdentifiers, ¬ strcasecmp mime id = 0 := by
    intro id hid h0
    have := (eqUpToAsciiCase_iff mime id).2 ((strcasecmp_eq_zero_iff mime id).1 h0)
    rw [hno id hid] at this
    exact Bool.noConfusion this
  have h1 := hneg MEDIA_MIMETYPE_CONTAINER_MPEG4 (by decide)
  have h2 := hneg "audio/mp4".toList (by decide)
  have h3 := hneg MEDIA_MIMETYPE_AUDIO_MPEG (by decide)
  have h4 := hneg MEDIA_MIMETYPE_AUDIO_AMR_NB (by decide)
  have h5 := hneg MEDIA_MIMETYPE_AUDIO_AMR_WB (by decide)
  have h6 := hneg MEDIA_MIMETYPE_AUDIO_FLAC (by decide)
  have h7 := hneg MEDIA_MIMETYPE_CONTAINER_WAV (by decide)
  have h8 := hneg MEDIA_MIMETYPE_CONTAINER_OGG (by decide)
  have h9 := hneg MEDIA_MIMETYPE_CONTAINER_MATROSKA (by decide)
  have h10 := hneg MEDIA_MIMETYPE_CONTAINER_MPEG2TS (by decide)
  have h11 := hneg MEDIA_MIMETYPE_CONTAINER_WVM (by decide)
  have h12 := hneg MEDIA_MIMETYPE_AUDIO_AAC_ADTS (by decide)
  have h13 := hneg MEDIA_MIMETYPE_CONTAINER_MPEG2PS (by decide)
  have h14 := hneg MEDIA_MIMETYPE_AUDIO_MIDI (by decide)
  unfold dispatchTable
  rw [if_neg (not_or.2 ⟨h1, h2⟩), if_neg h3, if_neg (not_or.2 ⟨h4, h5⟩), if_neg h6, if_neg h7,
    if_neg h8, if_neg h9, if_neg h10, if_neg h11, if_neg h12, if_neg h13, if_neg h14]


/-! ## Facts about what depends on the source -/

theorem ite_summary {c : Prop} [Decidable c] {a1 a2 b1 b2 : TableStep}
    (ha : a1.summary = a2.summary) (hb : b1.summary = b2.summary) :
    (if c then a1 else b1).summary = (if c then a2 else b2).summary := by
  by_cases hc : c
  · rw [if_pos hc, if_pos hc]; exact ha
  · rw [if_neg hc, if_neg hc]; exact hb

/-- Which entry of the table is taken, and the class it builds, depend on the
identifier alone. -/
theorem dispatchTable_summary (s1 s2 : DataSource) (m1 m2 : Option AMessage) (mime : CStr) :
    (dispatchTable s1 m1 mime).summary = (dispatchTable s2 m2 mime).summary := by
  unfold dispatchTable
  iterate 12 (refine ite_summary ?_ ?_; · rfl)
  rfl

theorem finish_summary (ret : Option MediaExtractor) (isDrm : Bool) (calls : List Call) :
    (finish ret isDrm calls).summary = ret.map (fun e => (e.built.type, some isDrm)) := by
  cases ret <;> cases isDrm <;> rfl

/-- With an identifier that did not come from the FFmpeg sniffer, the class
and the DRM flag of what is returned depend on the source only through what
`createAmExExtractor` builds. -/
theorem dispatch_summary (am : Option AmlogicMediaExSupport) (s1 s2 : DataSource)
    (meta : Option AMessage) (mime : CStr) (isDrm : Bool) (c1 c2 : List Call)
    (hx : ∀ ex, am = some ex →
      (ex.createAmExExtractor s1 mime meta).map (fun e => e.built.type)
        = (ex.createAmExExtractor s2 mime meta).map (fun e => e.built.type)) :
    (dispatch am s1 meta false mime isDrm c1).summary
      = (dispatch am s2 meta false mime isDrm c2).summary := by
  have hs := dispatchTable_summary s1 s2 meta meta mime
  have hmap : ∀ r1 r2 : Option MediaExtractor,
      r1.map (fun e => e.built.type) = r2.map (fun e => e.built.type) →
      r1.map (fun e => (e.built.type, some isDrm))
        = r2.map (fun e => (e.built.type, some isDrm)) := by
    intro r1 r2 h
    cases r1 <;> cases r2 <;> simp_all
  cases h1 : dispatchTable s1 meta mime with
  | returnNow e1 =>
    cases h2 : dispatchTable s2 meta mime with
    | returnNow e2 =>
      rw [h1, h2] at hs
      rw [dispatch_of_returnNow am s1 meta mime isDrm c1 e1 h1,
        dispatch_of_returnNow am s2 meta mime isDrm c2 e2 h2]
      simpa [TableStep.summary, Outcome.summary] using hs
    | assign r2 =>
      rw [h1, h2] at hs
      simp [TableStep.summary] at hs
  | assign r1 =>
    cases h2 : dispatchTable s2 meta mime with
    | returnNow e2 =>
      rw [h1, h2] at hs
      simp [TableStep.summary] at hs
    | assign r2 =>
      rw [h1, h2] at hs
      have hr : r1.map (fun e => e.built.type) = r2.map (fun e => e.built.type) := by
        simp only [TableStep.summary, Prod.mk.injEq, true_and] at hs
        cases r1 <;> cases r2 <;> simp_all
      cases am with
      | none =>
        simp only [dispatch, h1, h2, fallbackAndFinish, finish_summary]
        exact hmap r1 r2 hr
      | some ex =>
        cases r1 with
        | none =>
          cases r2 with
          | none =>
            simp only [dispatch, h1, h2, fallbackAndFinish, finish_summary, Bool.false_eq_true,
              if_false]
            exact hmap _ _ (hx ex rfl)
          | some e2 => simp at hr
        | some e1 =>
          cases r2 with
          | none => simp at hr
          | some e2 =>
            simp only [dispatch, h1, h2, fallbackAndFinish, finish_summary, Bool.false_eq_true,
              if_false]
            exact hmap _ _ hr


/-! ## Facts about where the calls come from -/

theorem fallbackAndFinish_calls_subset (am : Option AmlogicMediaExSupport)
    (source : DataSource) (meta : Option AMessage) (mime : CStr) (isDrm : Bool)
    (ret : Option MediaExtractor) (calls : List Call) :
    ∀ c ∈ (fallbackAndFinish am source meta mime isDrm ret calls).calls,
      c ∈ calls ∨ c = Call.createAmExExtractor mime meta := by
  intro c hc
  cases am <;> cases ret <;> simp [fallbackAndFinish, finish_calls] at hc <;> tauto

theorem dispatch_calls_subset (am : Option AmlogicMediaExSupport) (source : DataSource)
    (meta : Option AMessage) (ff : Bool) (mime : CStr) (isDrm : Bool) (calls : List Call) :
    ∀ c ∈ (dispatch am source meta ff mime isDrm calls).calls,
      c ∈ calls ∨ c = Call.createFFmpegExtractor mime
        ∨ c = Call.createAmExExtractor mime meta := by
  intro c hc
  unfold dispatch at hc
  cases am with
  | none =>
    simp only at hc
    cases ht : dispatchTable source meta mime with
    | returnNow e => rw [ht] at hc; exact Or.inl hc
    | assign ret =>
      rw [ht] at hc
      rcases fallbackAndFinish_calls_subset _ _ _ _ _ _ _ c hc with h | h
      · exact Or.inl h
      · exact Or.inr (Or.inr h)
  | some ex =>
    cases ff with
    | false =>
      simp only [Bool.false_eq_true, if_false] at hc
      cases ht : dispatchTable source meta mime with
      | returnNow e => rw [ht] at hc; exact Or.inl hc
      | assign ret =>
        rw [ht] at hc
        rcases fallbackAndFinish_calls_subset _ _ _ _ _ _ _ c hc with h | h
        · exact Or.inl h
        · exact Or.inr (Or.inr h)
    | true =>
      simp only [if_true] at hc
      have key : ∀ r, c ∈ (fallbackAndFinish (some ex) source meta mime isDrm r
          (calls ++ [Call.createFFmpegExtractor mime])).calls →
          c ∈ calls ∨ c = Call.createFFmpegExtractor mime
            ∨ c = Call.createAmExExtractor mime meta := by
        intro r hr
        rcases fallbackAndFinish_calls_subset _ _ _ _ _ _ _ c hr with h | h
        · simp only [List.mem_append, List.mem_singleton] at h
          tauto
        · exact Or.inr (Or.inr h)
      cases hf : ex.createFFmpegExtractor source mime with
      | some e0 => rw [hf] at hc; exact key _ hc
      | none =>
        rw [hf] at hc
        simp only at hc
        cases ht : dispatchTable source meta mime with
        | returnNow e =>
          rw [ht] at hc
          simp only [List.mem_append, List.mem_singleton] at hc
          tauto
        | assign ret => rw [ht] at hc; exact key _ hc

/-- Every call that lines 107-185 add is a call of a factory of the Amlogic
library, and `createAmExExtractor` is given the `meta` of line 63. -/
theorem unwrapAndDispatch_calls_subset (am : Option AmlogicMediaExSupport)
    (source : DataSource) (meta : Option AMessage) (ff : Bool) (mime : CStr)
    (calls : List Call) :
    ∀ c ∈ (unwrapAndDispatch am source meta ff mime calls).calls,
      c ∈ calls ∨ (∃ m, c = Call.createFFmpegExtractor m)
        ∨ (∃ m, c = Call.createAmExExtractor m meta) := by
  intro c hc
  have key : ∀ m isDrm, c ∈ (dispatch am source meta ff m isDrm calls).calls →
      c ∈ calls ∨ (∃ m, c = Call.createFFmpegExtractor m)
        ∨ (∃ m, c = Call.createAmExExtractor m meta) := by
    intro m isDrm h
    rcases dispatch_calls_subset _ _ _ _ _ _ _ c h with h | h | h
    · exact Or.inl h
    · exact Or.inr (Or.inl ⟨m, h⟩)
    · exact Or.inr (Or.inr ⟨m, h⟩)
  unfold unwrapAndDispatch at hc
  split at hc
  · split at hc
    · exact Or.inl hc
    · simp only at hc
      split at hc
      · exact Or.inl hc
      · split at hc
        · exact key _ _ hc
        · exact Or.inl hc
  · exact key _ _ hc


/-- For an identifier that did not come from the FFmpeg sniffer, the class and
the DRM flag of what lines 107-185 return depend on the source only through
what `createAmExExtractor` builds. -/
theorem unwrapAndDispatch_summary (am : Option AmlogicMediaExSupport) (s1 s2 : DataSource)
    (meta : Option AMessage) (mime : CStr) (c1 c2 : List Call)
    (hx : ∀ ex, am = some ex → ∀ m,
      (ex.createAmExExtractor s1 m meta).map (fun e => e.built.type)
        = (ex.createAmExExtractor s2 m meta).map (fun e => e.built.type)) :
    (unwrapAndDispatch am s1 meta false mime c1).summary
      = (unwrapAndDispatch am s2 meta false mime c2).summary := by
  have key : ∀ m isDrm, (dispatch am s1 meta false m isDrm c1).summary
      = (dispatch am s2 meta false m isDrm c2).summary :=
    fun m isDrm => dispatch_summary am s1 s2 meta m isDrm c1 c2 (fun ex h => hx ex h m)
  unfold unwrapAndDispatch
  by_cases h4 : strncmp mime "drm+".toList 4 = 0
  · rw [if_pos h4, if_pos h4]
    cases strchr (mime.drop 4) '+' with
    | none => rfl
    | some p =>
      simp only
      by_cases hes : strncmp mime "drm+es_based+".toList 13 = 0
      · rw [if_pos hes, if_pos hes]
        rfl
      · rw [if_neg hes, if_neg hes]
        by_cases hcb : strncmp mime "drm+container_based+".toList 20 = 0
        · rw [if_pos hcb, if_pos hcb]
          exact key _ _
        · rw [if_neg hcb, if_neg hcb]
          rfl
  · rw [if_neg h4, if_neg h4]
    exact key _ _


/-! ## Facts about which extractors get a DRM flag -/

theorem finish_ret_flag (ret : Option MediaExtractor) (isDrm : Bool) (calls : List Call)
    (e : MediaExtractor) (h : (finish ret isDrm calls).ret = some e) :
    e.drmFlag = some isDrm := by
  cases ret with
  | none => simp [finish] at h
  | some e0 =>
    cases isDrm <;> simp [finish, MediaExtractor.setDrmFlag] at h <;> rw [← h]

theorem fallbackAndFinish_ret_flag (am : Option AmlogicMediaExSupport) (source : DataSource)
    (meta : Option AMessage) (mime : CStr) (isDrm : Bool) (ret : Option MediaExtractor)
    (calls : List Call) (e : MediaExtractor)
    (h : (fallbackAndFinish am source meta mime isDrm ret calls).ret = some e) :
    e.drmFlag = some isDrm := by
  cases am <;> cases ret <;> simp only [fallbackAndFinish] at h <;>
    exact finish_ret_flag _ _ _ _ h

theorem dispatchTable_returnNow (source : DataSource) (meta : Option AMessage) (mime : CStr)
    (e : MediaExtractor) (h : dispatchTable source meta mime = .returnNow e) :
    e = .new (.WVMExtractor source) := by
  cases hc : eqUpToAsciiCase mime "video/wvm".toList with
  | true =>
    rw [dispatchTable_wvm source meta mime hc] at h
    exact (TableStep.returnNow.inj h).symm
  | false =>
    obtain ⟨ret, hr⟩ := dispatchTable_not_wvm source meta mime hc
    rw [hr] at h
    exact TableStep.noConfusion h

/-- What lines 129-185 return has had `setDrmFlag(isDrm)`, unless it is the
WVMExtractor of line 160. -/
theorem dispatch_ret_flag (am : Option AmlogicMediaExSupport) (source : DataSource)
    (meta : Option AMessage) (ff : Bool) (mime : CStr) (isDrm : Bool) (calls : List Call)
    (e : MediaExtractor) (h : (dispatch am source meta ff mime isDrm calls).ret = some e) :
    e.drmFlag = some isDrm ∨ e = .new (.WVMExtractor source) := by
  unfold dispatch at h
  have key : ∀ cs, (match dispatchTable source meta mime with
        | .returnNow e => (⟨some e, cs⟩ : Outcome)
        | .assign ret => fallbackAndFinish am source meta mime isDrm ret cs).ret = some e →
      e.drmFlag = some isDrm ∨ e = .new (.WVMExtractor source) := by
    intro cs hk
    cases ht : dispatchTable source meta mime with
    | returnNow e1 =>
      rw [ht] at hk
      simp only [Option.some.injEq] at hk
      subst hk
      exact Or.inr (dispatchTable_returnNow source meta mime _ ht)
    | assign ret =>
      rw [ht] at hk
      exact Or.inl (fallbackAndFinish_ret_flag _ _ _ _ _ _ _ _ hk)
  cases am with
  | none => exact key _ h
  | some ex =>
    cases ff with
    | false =>
      simp only [Bool.false_eq_true, if_false] at h
      exact key _ h
    | true =>
      simp only [if_true] at h
      cases hf : ex.createFFmpegExtractor source mime with
      | some e0 =>
        rw [hf] at h
        exact Or.inl (fallbackAndFinish_ret_flag _ _ _ _ _ _ _ _ h)
      | none =>
        rw [hf] at h
        exact key _ h

/-- A string that contains `c` splits at the first `c`. -/
theorem split_at_first (c : Char) (l : CStr) (h : c ∈ l) :
    ∃ m rest, l = m ++ c :: rest ∧ c ∉ m := by
  induction l with
  | nil => simp at h
  | cons x xs ih =>
    by_cases hx : x = c
    · exact ⟨[], xs, by simp [hx], by simp⟩
    · have hin : c ∈ xs := by
        rcases List.mem_cons.1 h with h | h
        · exact absurd h.symm hx
        · exact h
      obtain ⟨m, rest, hm, hnot⟩ := ih hin
      refine ⟨x :: m, rest, by simp [hm], ?_⟩
      simp only [List.mem_cons, not_or]
      exact ⟨fun h => hx h.symm, hnot⟩

/-- What lines 107-185 return: an extractor flagged true for a
`drm+container_based+` identifier, flagged false for an identifier that does
not start with `drm+`, or one of the two early returns, which carry no flag. -/
theorem unwrapAndDispatch_ret_flag (am : Option AmlogicMediaExSupport) (source : DataSource)
    (meta : Option AMessage) (ff : Bool) (mime : CStr) (calls : List Call)
    (e : MediaExtractor) (h : (unwrapAndDispatch am source meta ff mime calls).ret = some e) :
    (e.drmFlag = some true ∧ "drm+container_based+".toList <+: mime)
      ∨ (e.drmFlag = some false ∧ ¬ "drm+".toList <+: mime)
      ∨ (∃ rest, mime = "drm+es_based+".toList ++ rest
          ∧ e = .new (.DRMExtractor source rest))
      ∨ (e = .new (.WVMExtractor source)
          ∧ (¬ "drm+".toList <+: mime ∨ "drm+container_based+".toList <+: mime)) := by
  by_cases hd : "drm+".toList <+: mime
  · obtain ⟨r, rfl⟩ := hd
    by_cases hp : '+' ∈ r
    · obtain ⟨mode, rest, rfl, hm⟩ := split_at_first '+' r hp
      rw [← List.append_assoc, unwrapAndDispatch_drm am source meta ff mode rest calls hm] at h
      by_cases hes : mode = "es_based".toList
      · rw [if_pos hes] at h
        subst hes
        refine Or.inr (Or.inr (Or.inl ⟨rest, rfl, ?_⟩))
        simp only [Option.some.injEq] at h
        exact h.symm
      · rw [if_neg hes] at h
        by_cases hcb : mode = "container_based".toList
        · rw [if_pos hcb] at h
          subst hcb
          have hpre : "drm+container_based+".toList
              <+: "drm+".toList ++ ("container_based".toList ++ '+' :: rest) := ⟨rest, rfl⟩
          rcases dispatch_ret_flag _ _ _ _ _ _ _ _ h with hf | hw
          · exact Or.inl ⟨hf, hpre⟩
          · exact Or.inr (Or.inr (Or.inr ⟨hw, Or.inr hpre⟩))
        · rw [if_neg hcb] at h
          simp at h
    · rw [unwrapAndDispatch_no_second_plus am source meta ff r calls hp] at h
      simp at h
  · rw [unwrapAndDispatch_of_not_drm am source meta ff mime calls hd] at h
    rcases dispatch_ret_flag _ _ _ _ _ _ _ _ h with hf | hw
    · exact Or.inr (Or.inl ⟨hf, hd⟩)
    · exact Or.inr (Or.inr (Or.inr ⟨hw, Or.inl hd⟩))


/-! ## Facts about the registry -/

/-- Two entries of a registry with different names and the same string are
listed by `aliasedNames`, in one order or the other. -/
theorem aliasedNames_complete (l : List (String × CStr)) (a b : String × CStr)
    (ha : a ∈ l) (hb : b ∈ l) (hne : a.1 ≠ b.1) (h : a.2 = b.2) :
    (a.1, b.1) ∈ aliasedNames l ∨ (b.1, a.1) ∈ aliasedNames l := by
  induction l with
  | nil => simp at ha
  | cons x rest ih =>
    obtain ⟨n, v⟩ := x
    simp only [aliasedNames, List.mem_append, List.mem_map, List.mem_filter,
      decide_eq_true_eq]
    rcases List.mem_cons.1 ha with ha | ha
    · rcases List.mem_cons.1 hb with hb | hb
      · rw [ha, hb] at hne
        exact absurd rfl hne
      · left; left
        refine ⟨b, ⟨hb, ?_⟩, ?_⟩
        · rw [← h, ha]
        · rw [ha]
    · rcases List.mem_cons.1 hb with hb | hb
      · right; left
        refine ⟨a, ⟨ha, ?_⟩, ?_⟩
        · rw [h, hb]
        · rw [hb]
      · rcases ih ha hb with h1 | h1
        · exact Or.inl (Or.inr h1)
        · exact Or.inr (Or.inr h1)


/-! ## Facts about the metadata that is passed on -/

theorem ite_tableStep {c : Prop} [Decidable c] {a b : TableStep} (P : TableStep → Prop)
    (ha : P a) (hb : P b) : P (if c then a else b) := by
  by_cases hc : c
  · rw [if_pos hc]; exact ha
  · rw [if_neg hc]; exact hb

/-- What holds of every leaf of the dispatch table holds of its result. -/
theorem dispatchTable_cases (P : TableStep → Prop) (source : DataSource)
    (meta : Option AMessage) (mime : CStr)
    (h1 : P (.assign (some (.new (.MPEG4Extractor source)))))
    (h2 : P (.assign (some (.new (.MP3Extractor source meta)))))
    (h3 : P (.assign (some (.new (.AMRExtractor source)))))
    (h4 : P (.assign (some (.new (.FLACExtractor source)))))
    (h5 : P (.assign (some (.new (.WAVExtractor source)))))
    (h6 : P (.assign (some (.new (.OggExtractor source)))))
    (h7 : P (.assign (some (.new (.MatroskaExtractor source)))))
    (h8 : P (.assign (some (.new (.MPEG2TSExtractor source)))))
    (h9 : P (.returnNow (.new (.WVMExtractor source))))
    (h10 : P (.assign (some (.new (.AACExtractor source meta)))))
    (h11 : P (.assign (some (.new (.MPEG2PSExtractor source)))))
    (h12 : P (.assign (some (.new (.MidiExtractor source)))))
    (h13 : P (.assign none)) :
    P (dispatchTable source meta mime) := by
  unfold dispatchTable
  exact ite_tableStep P h1 (ite_tableStep P h2 (ite_tableStep P h3 (ite_tableStep P h4
    (ite_tableStep P h5 (ite_tableStep P h6 (ite_tableStep P h7 (ite_tableStep P h8
    (ite_tableStep P h9 (ite_tableStep P h10 (ite_tableStep P h11
    (ite_tableStep P h12 h13)))))))))))

/-- An MP3Extractor or AACExtractor of the dispatch table is built with the
`meta` of line 63. -/
theorem dispatchTable_meta (source : DataSource) (meta : Option AMessage) (mime : CStr)
    (e0 : MediaExtractor) (h : dispatchTable source meta mime = .assign (some e0))
    (s : DataSource) (μ : Option AMessage)
    (hb : e0.built = .MP3Extractor s μ ∨ e0.built = .AACExtractor s μ) : μ = meta := by
  have key := dispatchTable_cases
    (fun t => ∀ e0 : MediaExtractor, t = .assign (some e0) → ∀ (s : DataSource)
      (μ : Option AMessage),
      (e0.built = .MP3Extractor s μ ∨ e0.built = .AACExtractor s μ) → μ = meta)
    source meta mime
  refine key ?_ ?_ ?_ ?_ ?_ ?_ ?_ ?_ ?_ ?_ ?_ ?_ ?_ e0 h s μ hb
  all_goals
    intro e1 h1 s1 μ1 hb1
    first
      | exact TableStep.noConfusion h1
      | exact Option.noConfusion (TableStep.assign.inj h1)
      | (have h2 := Option.some.inj (TableStep.assign.inj h1)
         subst h2
         simp [MediaExtractor.new] at hb1 <;> exact hb1.2.symm)


theorem finish_ret_built (ret : Option MediaExtractor) (isDrm : Bool) (calls : List Call)
    (e : MediaExtractor) (h : (finish ret isDrm calls).ret = some e) :
    ∃ e0, ret = some e0 ∧ e.built = e0.built := by
  cases ret with
  | none => simp [finish] at h
  | some e0 =>
    refine ⟨e0, rfl, ?_⟩
    cases isDrm <;> simp [finish, MediaExtractor.setDrmFlag] at h <;> rw [← h]

theorem fallbackAndFinish_ret_built (am : Option AmlogicMediaExSupport) (source : DataSource)
    (meta : Option AMessage) (mime : CStr) (isDrm : Bool) (ret : Option MediaExtractor)
    (calls : List Call) (e : MediaExtractor)
    (h : (fallbackAndFinish am source meta mime isDrm ret calls).ret = some e) :
    (∃ e0, ret = some e0 ∧ e.built = e0.built)
      ∨ (∃ ex e0, am = some ex ∧ ex.createAmExExtractor source mime meta = some e0
          ∧ e.built = e0.built) := by
  cases am with
  | none =>
    cases ret <;> simp only [fallbackAndFinish] at h <;> exact Or.inl (finish_ret_built _ _ _ _ h)
  | some ex =>
    cases ret with
    | some e1 =>
      simp only [fallbackAndFinish] at h
      exact Or.inl (finish_ret_built _ _ _ _ h)
    | none =>
      simp only [fallbackAndFinish] at h
      obtain ⟨e0, h0, hb⟩ := finish_ret_built _ _ _ _ h
      exact Or.inr ⟨ex, e0, rfl, h0, hb⟩

/-- What lines 129-185 return was built by the dispatch table or by a factory
of the Amlogic library, and `createAmExExtractor` was given `meta`. -/
theorem dispatch_ret_origin (am : Option AmlogicMediaExSupport) (source : DataSource)
    (meta : Option AMessage) (ff : Bool) (mime : CStr) (isDrm : Bool) (calls : List Call)
    (e : MediaExtractor) (h : (dispatch am source meta ff mime isDrm calls).ret = some e) :
    (∃ e0, dispatchTable source meta mime = .assign (some e0) ∧ e.built = e0.built)
      ∨ e = .new (.WVMExtractor source)
      ∨ (∃ ex e0, am = some ex
          ∧ (ex.createFFmpegExtractor source mime = some e0
              ∨ ex.createAmExExtractor source mime meta = some e0)
          ∧ e.built = e0.built) := by
  unfold dispatch at h
  have key : ∀ cs, (match dispatchTable source meta mime with
        | .returnNow e => (⟨some e, cs⟩ : Outcome)
        | .assign ret => fallbackAndFinish am source meta mime isDrm ret cs).ret = some e →
      (∃ e0, dispatchTable source meta mime = .assign (some e0) ∧ e.built = e0.built)
        ∨ e = .new (.WVMExtractor source)
        ∨ (∃ ex e0, am = some ex
            ∧ (ex.createFFmpegExtractor source mime = some e0
                ∨ ex.createAmExExtractor source mime meta = some e0)
            ∧ e.built = e0.built) := by
    intro cs hk
    cases ht : dispatchTable source meta mime with
    | returnNow e1 =>
      rw [ht] at hk
      simp only [Option.some.injEq] at hk
      subst hk
      exact Or.inr (Or.inl (dispatchTable_returnNow source meta mime _ ht))
    | assign ret =>
      rw [ht] at hk
      rcases fallbackAndFinish_ret_built _ _ _ _ _ _ _ _ hk with ⟨e0, h0, hb⟩ | ⟨ex, e0, ha, h0, hb⟩
      · exact Or.inl ⟨e0, by rw [h0], hb⟩
      · exact Or.inr (Or.inr ⟨ex, e0, ha, Or.inr h0, hb⟩)
  cases am with
  | none => exact key _ h
  | some ex =>
    cases ff with
    | false =>
      simp only [Bool.false_eq_true, if_false] at h
      exact key _ h
    | true =>
      simp only [if_true] at h
      cases hf : ex.createFFmpegExtractor source mime with
      | some e0 =>
        rw [hf] at h
        simp only [fallbackAndFinish] at h
        obtain ⟨e1, h1, hb⟩ := finish_ret_built _ _ _ _ h
        exact Or.inr (Or.inr ⟨ex, e0, rfl, Or.inl hf, by rw [hb, ← Option.some.inj h1]⟩)
      | none =>
        rw [hf] at h
        exact key _ h

/-- An MP3Extractor or AACExtractor that lines 107-185 return carries the
`meta` of line 63, unless a factory of the Amlogic library built it; and that
factory, if it is `createAmExExtractor`, was given the `meta` of line 63. -/
theorem unwrapAndDispatch_ret_meta (am : Option AmlogicMediaExSupport) (source : DataSource)
    (meta : Option AMessage) (ff : Bool) (mime : CStr) (calls : List Call)
    (e : MediaExtractor) (s : DataSource) (μ : Option AMessage)
    (h : (unwrapAndDispatch am source meta ff mime calls).ret = some e)
    (hb : e.built = .MP3Extractor s μ ∨ e.built = .AACExtractor s μ) :
    μ = meta ∨ ∃ ex m e0, am = some ex
      ∧ (ex.createFFmpegExtractor source m = some e0
          ∨ ex.createAmExExtractor source m meta = some e0)
      ∧ e.built = e0.built := by
  have key : ∀ m isDrm, (dispatch am source meta ff m isDrm calls).ret = some e →
      μ = meta ∨ ∃ ex m e0, am = some ex
        ∧ (ex.createFFmpegExtractor source m = some e0
            ∨ ex.createAmExExtractor source m meta = some e0)
        ∧ e.built = e0.built := by
    intro m isDrm hd
    rcases dispatch_ret_origin _ _ _ _ _ _ _ _ hd with ⟨e0, ht, hbe⟩ | hw | ⟨ex, e0, ha, hf, hbe⟩
    · exact Or.inl (dispatchTable_meta source meta m e0 ht s μ (by rw [← hbe]; exact hb))
    · rw [hw] at hb
      simp [MediaExtractor.new] at hb
    · exact Or.inr ⟨ex, m, e0, ha, hf, hbe⟩
  unfold unwrapAndDispatch at h
  split at h
  · split at h
    · simp at h
    · simp only at h
      split at h
      · simp only [Option.some.injEq] at h
        rw [← h] at hb
        simp [MediaExtractor.new] at hb
      · split at h
        · exact key _ _ h
        · simp at h
  · exact key _ _ h


/-- The sniffing block keeps the metadata of the source's own sniff, also when
the FFmpeg sniffer's identifier and confidence are taken, and calls nothing but
the two sniffers. -/
theorem autodetect_meta (am : Option AmlogicMediaExSupport) (source : DataSource)
    (d : Detected) (calls : List Call) (h : autodetect am source = (some d, calls)) :
    d.meta = source.sniff.meta ∧ ∀ c ∈ calls, c = Call.sniff ∨ c = Call.sniffFFmpegFormat := by
  unfold autodetect at h
  cases am with
  | none =>
    simp only at h
    split at h
    · simp at h
    · simp only [Prod.mk.injEq, Option.some.injEq] at h
      obtain ⟨hd, hc⟩ := h
      subst hd hc
      simp
  | some ex =>
    simp only at h
    split at h
    · split at h
      · simp at h
      · split at h <;>
        · simp only [Prod.mk.injEq, Option.some.injEq] at h
          obtain ⟨hd, hc⟩ := h
          subst hd hc
          simp
    · simp only [Prod.mk.injEq, Option.some.injEq] at h
      obtain ⟨hd, hc⟩ := h
      subst hd hc
      simp


/-! ## The claims -/

/-- C1: with an explicit format and no secondary dispatch (the build without
the Amlogic support), `MediaExtractor::Create` maps each identifier of the
dispatch table, in the spelling of its constant in MediaDefs.cpp, to its own
extractor: no earlier branch of the table takes an identifier of a later one.
Every extractor but the WVMExtractor gets `setDrmFlag(false)`. -/
theorem Create_dispatch_table (source : DataSource) :
    [MEDIA_MIMETYPE_CONTAINER_MPEG4, MEDIA_MIMETYPE_AUDIO_MPEG, MEDIA_MIMETYPE_AUDIO_AMR_NB,
      MEDIA_MIMETYPE_AUDIO_AMR_WB, MEDIA_MIMETYPE_AUDIO_FLAC, MEDIA_MIMETYPE_CONTAINER_WAV,
      MEDIA_MIMETYPE_CONTAINER_OGG, MEDIA_MIMETYPE_CONTAINER_MATROSKA,
      MEDIA_MIMETYPE_CONTAINER_MPEG2TS, MEDIA_MIMETYPE_CONTAINER_WVM,
      MEDIA_MIMETYPE_AUDIO_AAC_ADTS, MEDIA_MIMETYPE_CONTAINER_MPEG2PS, MEDIA_MIMETYPE_AUDIO_MIDI]
      = ["video/mp4".toList, "audio/mpeg".toList, "audio/3gpp".toList, "audio/amr-wb".toList,
          "audio/flac".toList, "audio/x-wav".toList, "application/ogg".toList,
          "video/x-matroska".toList, "video/mp2ts".toList, "video/wvm".toList,
          "audio/aac-adts".toList, "video/mp2p".toList, "audio/midi".toList]
    ∧ MediaExtractor.Create none source (some "video/mp4".toList)
        = ⟨some ⟨.MPEG4Extractor source, some false⟩, []⟩
    ∧ MediaExtractor.Create none source (some "audio/mp4".toList)
        = ⟨some ⟨.MPEG4Extractor source, some false⟩, []⟩
    ∧ MediaExtractor.Create none source (some "audio/mpeg".toList)
        = ⟨some ⟨.MP3Extractor source none, some false⟩, []⟩
    ∧ MediaExtractor.Create none source (some "audio/3gpp".toList)
        = ⟨some ⟨.AMRExtractor source, some false⟩, []⟩
    ∧ MediaExtractor.Create none source (some "audio/amr-wb".toList)
        = ⟨some ⟨.AMRExtractor source, some false⟩, []⟩
    ∧ MediaExtractor.Create none source (some "audio/flac".toList)
        = ⟨some ⟨.FLACExtractor source, some false⟩, []⟩
    ∧ MediaExtractor.Create none source (some "audio/x-wav".toList)
        = ⟨some ⟨.WAVExtractor source, some false⟩, []⟩
    ∧ MediaExtractor.Create none source (some "application/ogg".toList)
        = ⟨some ⟨.OggExtractor source, some false⟩, []⟩
    ∧ MediaExtractor.Create none source (some "video/x-matroska".toList)
        = ⟨some ⟨.MatroskaExtractor source, some false⟩, []⟩
    ∧ MediaExtractor.Create none source (some "video/mp2ts".toList)
        = ⟨some ⟨.MPEG2TSExtractor source, some false⟩, []⟩
    ∧ MediaExtractor.Create none source (some "video/wvm".toList)
        = ⟨some ⟨.WVMExtractor source, none⟩, []⟩
    ∧ MediaExtractor.Create none source (some "audio/aac-adts".toList)
        = ⟨some ⟨.AACExtractor source none, some false⟩, []⟩
    ∧ MediaExtractor.Create none source (some "video/mp2p".toList)
        = ⟨some ⟨.MPEG2PSExtractor source, some false⟩, []⟩
    ∧ MediaExtractor.Create none source (some "audio/midi".toList)
        = ⟨some ⟨.MidiExtractor source, some false⟩, []⟩ := by
  refine ⟨rfl, rfl, rfl, rfl, rfl, rfl, rfl, rfl, rfl, rfl, rfl, rfl, rfl, rfl, rfl⟩

/-- C2: an explicit format that equals an identifier of the dispatch table up
to the case of ASCII letters gives the same outcome (extractor, constructor
arguments, DRM flag, collaborator calls) as the identifier itself, in both
builds. -/
theorem Create_case_insensitive (am : Option AmlogicMediaExSupport) (source : DataSource)
    (s id : CStr) (hid : id ∈ dispatchIdentifiers) (h : eqUpToAsciiCase s id = true) :
    MediaExtractor.Create am source (some s) = MediaExtractor.Create am source (some id) := by
  have hl : s.map tolower = id.map tolower := (eqUpToAsciiCase_iff s id).1 h
  have hs := not_drm_of_dispatchIdentifier s id hid hl
  have hi := not_drm_of_dispatchIdentifier id id hid rfl
  have ht := dispatchTable_congr source none s id hl
  simp only [MediaExtractor.Create]
  rw [unwrapAndDispatch_of_not_drm am source none false s [] hs,
    unwrapAndDispatch_of_not_drm am source none false id [] hi]
  rcases dispatchTable_of_identifier source none id hid with ⟨e, he⟩ | ⟨e, he⟩
  · rw [dispatch_of_assign am source none id false [] e he,
      dispatch_of_assign am source none s false [] e (ht.trans he)]
  · rw [dispatch_of_returnNow am source none id false [] e he,
      dispatch_of_returnNow am source none s false [] e (ht.trans he)]

theorem Create_case_insensitive_witness :
    "audio/mpeg".toList ∈ dispatchIdentifiers
      ∧ eqUpToAsciiCase "AuDiO/MpEg".toList "audio/mpeg".toList = true
      ∧ MediaExtractor.Create none silentSource (some "AuDiO/MpEg".toList)
          = MediaExtractor.Create none silentSource (some "audio/mpeg".toList) :=
  ⟨by decide, by decide,
    Create_case_insensitive none silentSource "AuDiO/MpEg".toList "audio/mpeg".toList
      (by decide) (by decide)⟩

/-- C3, the claim as stated fails twice. `drm+container_based+video/wvm`
returns the WVMExtractor of `video/wvm` with no DRM flag applied, not with the
flag set to true (line 160 returns before the flag is applied); and
`drm+es_based+x` yields a DRMExtractor while `drm+container_based+drm+es_based+x`
yields nothing, the inner identifier not being unwrapped a second time. -/
theorem Create_container_based_counterexample :
    (MediaExtractor.Create none silentSource (some "video/wvm".toList)).ret
        = some ⟨.WVMExtractor silentSource, none⟩
      ∧ (MediaExtractor.Create none silentSource
            (some ("drm+container_based+".toList ++ "video/wvm".toList))).ret
          = some ⟨.WVMExtractor silentSource, none⟩
      ∧ (MediaExtractor.Create none silentSource
            (some ("drm+container_based+".toList ++ "video/wvm".toList))).ret
          ≠ some ⟨.WVMExtractor silentSource, some true⟩
      ∧ (MediaExtractor.Create none silentSource (some "drm+es_based+x".toList)).ret
          = some ⟨.DRMExtractor silentSource "x".toList, none⟩
      ∧ (MediaExtractor.Create none silentSource
            (some ("drm+container_based+".toList ++ "drm+es_based+x".toList))).ret = none := by
  refine ⟨rfl, rfl, ?_, rfl, rfl⟩
  intro h
  exact absurd (congrArg (fun r => r.bind MediaExtractor.drmFlag) h) (by decide)

/-- C3 as amended: for an inner identifier that does not itself start with
`drm+`, `drm+container_based+<inner>` makes the collaborator calls of `<inner>`
and returns an extractor exactly when `<inner>` does, built the same way.
Unless `<inner>` is `video/wvm` up to case, the wrapped extractor has had
`setDrmFlag(true)` where the unwrapped one has had `setDrmFlag(false)`; for
`video/wvm` both outcomes are the same WVMExtractor without any DRM flag. -/
theorem Create_container_based (am : Option AmlogicMediaExSupport) (source : DataSource)
    (inner : CStr) (h : ¬ "drm+".toList <+: inner) :
    (MediaExtractor.Create am source (some ("drm+container_based+".toList ++ inner))).calls
        = (MediaExtractor.Create am source (some inner)).calls
      ∧ (eqUpToAsciiCase inner "video/wvm".toList = true →
          MediaExtractor.Create am source (some ("drm+container_based+".toList ++ inner))
              = MediaExtractor.Create am source (some inner)
            ∧ (MediaExtractor.Create am source (some inner)).ret
              = some ⟨.WVMExtractor source, none⟩)
      ∧ (eqUpToAsciiCase inner "video/wvm".toList = false →
          (MediaExtractor.Create am source (some ("drm+container_based+".toList ++ inner))).ret
              = (MediaExtractor.Create am source (some inner)).ret.map
                  (fun e => e.setDrmFlag true)
            ∧ ∀ e, (MediaExtractor.Create am source (some inner)).ret = some e →
                e.drmFlag = some false) := by
  have hw : MediaExtractor.Create am source (some ("drm+container_based+".toList ++ inner))
      = dispatch am source none false inner true [] := by
    have := unwrapAndDispatch_drm am source none false "container_based".toList inner []
      (by decide)
    rw [if_neg (by decide), if_pos rfl] at this
    exact this
  have hu : MediaExtractor.Create am source (some inner)
      = dispatch am source none false inner false [] :=
    unwrapAndDispatch_of_not_drm am source none false inner [] h
  rw [hw, hu]
  cases hc : eqUpToAsciiCase inner "video/wvm".toList with
  | true =>
    have ht := dispatchTable_wvm source none inner hc
    rw [dispatch_of_returnNow am source none inner true [] _ ht,
      dispatch_of_returnNow am source none inner false [] _ ht]
    simp [MediaExtractor.new]
  | false =>
    obtain ⟨ret, ht⟩ := dispatchTable_not_wvm source none inner hc
    obtain ⟨r, cs, hr⟩ := dispatch_flag am source none inner [] ret ht
    rw [hr true, hr false]
    cases r <;> simp [MediaExtractor.setDrmFlag]

theorem Create_container_based_witness :
    ¬ "drm+".toList <+: "audio/mpeg".toList
      ∧ (MediaExtractor.Create none silentSource
            (some ("drm+container_based+".toList ++ "audio/mpeg".toList))).ret
          = (MediaExtractor.Create none silentSource (some "audio/mpeg".toList)).ret.map
              (fun e => e.setDrmFlag true) :=
  ⟨by decide,
    ((Create_container_based none silentSource "audio/mpeg".toList (by decide)).2.2
      (by decide)).1⟩

/-- C4: for every `rest`, `drm+es_based+<rest>` returns at once a DRMExtractor
built on the source with `rest` as its second argument; `setDrmFlag` is not
called on it and no collaborator is called. The same holds at lines 107-127
for an identifier that was sniffed. -/
theorem Create_es_based (am : Option AmlogicMediaExSupport) (source : DataSource)
    (rest : CStr) :
    MediaExtractor.Create am source (some ("drm+es_based+".toList ++ rest))
        = ⟨some ⟨.DRMExtractor source rest, none⟩, []⟩
      ∧ ∀ (meta : Option AMessage) (ff : Bool) (calls : List Call),
          unwrapAndDispatch am source meta ff ("drm+es_based+".toList ++ rest) calls
            = ⟨some ⟨.DRMExtractor source rest, none⟩, calls⟩ := by
  have key : ∀ (meta : Option AMessage) (ff : Bool) (calls : List Call),
      unwrapAndDispatch am source meta ff ("drm+es_based+".toList ++ rest) calls
        = ⟨some ⟨.DRMExtractor source rest, none⟩, calls⟩ := by
    intro meta ff calls
    have := unwrapAndDispatch_drm am source meta ff "es_based".toList rest calls (by decide)
    rw [if_pos rfl] at this
    exact this
  exact ⟨key none false [], key⟩

/-- C5: a format that starts with `drm+` and has no `+` after that prefix
yields `NULL`, and neither the dispatch table nor a collaborator (whatever the
build) is reached. The same holds at lines 107-127 for an identifier that was
sniffed: no call is added to those of the sniffing block. -/
theorem Create_drm_without_second_plus (am : Option AmlogicMediaExSupport)
    (source : DataSource) (r : CStr) (hr : '+' ∉ r) :
    MediaExtractor.Create am source (some ("drm+".toList ++ r)) = ⟨none, []⟩
      ∧ ∀ (meta : Option AMessage) (ff : Bool) (calls : List Call),
          unwrapAndDispatch am source meta ff ("drm+".toList ++ r) calls = ⟨none, calls⟩ :=
  ⟨unwrapAndDispatch_no_second_plus am source none false r [] hr,
    fun meta ff calls => unwrapAndDispatch_no_second_plus am source meta ff r calls hr⟩

theorem Create_drm_without_second_plus_witness :
    '+' ∉ "es_based".toList
      ∧ MediaExtractor.Create none silentSource (some ("drm+".toList ++ "es_based".toList))
          = ⟨none, []⟩ :=
  ⟨by decide,
    (Create_drm_without_second_plus none silentSource "es_based".toList (by decide)).1⟩

/-- C6: a format `drm+<mode>+<rest>` whose mode has no `+` and is neither
`es_based` nor `container_based`, compared exactly, yields `NULL` without any
collaborator call. The same holds at lines 107-127 for an identifier that was
sniffed. -/
theorem Create_drm_unknown_mode (am : Option AmlogicMediaExSupport) (source : DataSource)
    (mode rest : CStr) (hm : '+' ∉ mode) (hes : mode ≠ "es_based".toList)
    (hcb : mode ≠ "container_based".toList) :
    MediaExtractor.Create am source (some ("drm+".toList ++ mode ++ '+' :: rest))
        = ⟨none, []⟩
      ∧ ∀ (meta : Option AMessage) (ff : Bool) (calls : List Call),
          unwrapAndDispatch am source meta ff ("drm+".toList ++ mode ++ '+' :: rest) calls
            = ⟨none, calls⟩ := by
  have key : ∀ (meta : Option AMessage) (ff : Bool) (calls : List Call),
      unwrapAndDispatch am source meta ff ("drm+".toList ++ mode ++ '+' :: rest) calls
        = ⟨none, calls⟩ := by
    intro meta ff calls
    have := unwrapAndDispatch_drm am source meta ff mode rest calls hm
    rw [if_neg hes, if_neg hcb] at this
    exact this
  exact ⟨key none false [], key⟩

theorem Create_drm_unknown_mode_witness :
    '+' ∉ "ES_BASED".toList ∧ "ES_BASED".toList ≠ "es_based".toList
      ∧ "ES_BASED".toList ≠ "container_based".toList
      ∧ MediaExtractor.Create none silentSource
          (some ("drm+".toList ++ "ES_BASED".toList ++ '+' :: "video/mp4".toList))
          = ⟨none, []⟩ :=
  ⟨by decide, by decide, by decide,
    (Create_drm_unknown_mode none silentSource "ES_BASED".toList "video/mp4".toList
      (by decide) (by decide) (by decide)).1⟩

/-- C7: in the build with the FFmpeg sniffer and without an explicit format,
when the FFmpeg sniffer has been asked and the sniffing block does not return
`NULL`, the result is taken from the FFmpeg sniffer (`is_sniff_from_ffmpeg`)
exactly when the primary confidence is 0, or the FFmpeg confidence is greater
than the primary one, or the FFmpeg confidence is positive and the two
identifiers differ; the identifier and confidence are then the FFmpeg
sniffer's, and otherwise the primary's; `Create` goes on with that identifier.
In particular primary (A, 0.5) against FFmpeg (B, 0.5) with A different from
B gives B. The primary confidence is the one of lines 68-72 (0 after a sniff
that reported failure). -/
theorem autodetect_arbitration (ex : AmlogicMediaExSupport) (source : DataSource) :
    (∀ d : Detected, Call.sniffFFmpegFormat ∈ (autodetect (some ex) source).2 →
      (autodetect (some ex) source).1 = some d →
        (d.is_sniff_from_ffmpeg = true ↔
          (primaryConfidence source = 0
            ∨ (ex.sniffFFmpegFormat source).confidence > primaryConfidence source
            ∨ ((ex.sniffFFmpegFormat source).confidence > 0
                ∧ (ex.sniffFFmpegFormat source).mime ≠ source.sniff.mime)))
        ∧ (d.is_sniff_from_ffmpeg = true →
            d.tmp = (ex.sniffFFmpegFormat source).mime
              ∧ d.confidence = (ex.sniffFFmpegFormat source).confidence)
        ∧ (d.is_sniff_from_ffmpeg = false →
            d.tmp = source.sniff.mime ∧ d.confidence = primaryConfidence source)
        ∧ MediaExtractor.Create (some ex) source none
            = unwrapAndDispatch (some ex) source d.meta d.is_sniff_from_ffmpeg d.tmp
                [Call.sniff, Call.sniffFFmpegFormat])
    ∧ (∀ (A B : CStr) (m m' : Option AMessage) (ok : Bool), A ≠ B →
        source.sniff = ⟨true, A, 0.5, m⟩ → ex.sniffFFmpegFormat source = ⟨ok, B, 0.5, m'⟩ →
          autodetect (some ex) source
            = (some ⟨B, 0.5, m, true⟩, [Call.sniff, Call.sniffFFmpegFormat])) := by
  constructor
  · intro d hcons hres
    have htrig := (autodetect_calls ex source).1 hcons
    have hcalls : (autodetect (some ex) source).2 = [Call.sniff, Call.sniffFFmpegFormat] := by
      unfold autodetect
      simp only [strcmp_eq_zero_iff]
      rw [if_pos htrig]
      split
      · rfl
      · split <;> rfl
    have hC := Create_of_autodetect (some ex) source d [Call.sniff, Call.sniffFFmpegFormat]
      (by rw [← hcalls, ← hres])
    refine ⟨?_, ?_, ?_, hC⟩
    all_goals
      unfold autodetect at hres
      simp only [strcmp_eq_zero_iff, ne_eq] at hres
      rw [if_pos htrig] at hres
      split at hres
      · exact absurd hres (by simp)
      · split at hres
        · rename_i hc
          simp only [Option.some.injEq] at hres
          subst hres
          simp [hc]
        · rename_i hc
          simp only [Option.some.injEq] at hres
          subst hres
          simp [hc]
  · intro A B m m' ok hAB hs hf
    have hpc : primaryConfidence source = 0.5 := by simp [primaryConfidence, hs]
    unfold autodetect
    simp only [strcmp_eq_zero_iff, ne_eq, hpc, hs, hf]
    norm_num [Ne.symm hAB]

theorem autodetect_arbitration_witness :
    "audio/mpeg".toList ≠ "audio/flac".toList
      ∧ autodetect (some (sniffingOnly ⟨true, "audio/flac".toList, 0.5, none⟩))
            (sourceOf "audio/mpeg".toList 0.5)
          = (some ⟨"audio/flac".toList, 0.5, none, true⟩, [Call.sniff, Call.sniffFFmpegFormat])
      ∧ MediaExtractor.Create (some (sniffingOnly ⟨true, "audio/flac".toList, 0.5, none⟩))
            (sourceOf "audio/mpeg".toList 0.5) none
          = unwrapAndDispatch (some (sniffingOnly ⟨true, "audio/flac".toList, 0.5, none⟩))
              (sourceOf "audio/mpeg".toList 0.5) none true "audio/flac".toList
              [Call.sniff, Call.sniffFFmpegFormat] := by
  have hev := (autodetect_arbitration (sniffingOnly ⟨true, "audio/flac".toList, 0.5, none⟩)
    (sourceOf "audio/mpeg".toList 0.5)).2 "audio/mpeg".toList "audio/flac".toList none none true
    (by decide) rfl rfl
  refine ⟨by decide, hev, ?_⟩
  exact ((autodetect_arbitration (sniffingOnly ⟨true, "audio/flac".toList, 0.5, none⟩)
    (sourceOf "audio/mpeg".toList 0.5)).1 ⟨"audio/flac".toList, 0.5, none, true⟩
    (by rw [hev]; simp) (by rw [hev])).2.2.2

/-- C8: in the build with the FFmpeg sniffer and without an explicit format,
the FFmpeg sniffer is called if and only if the primary confidence is below
0.8 or the primary identifier is `audio/wma`. A primary result (A, 0.9) with A
other than `audio/wma` goes on with A, the FFmpeg sniffer not being called; a
primary identifier `audio/wma` has it called whatever the confidence. -/
theorem Create_secondary_trigger (ex : AmlogicMediaExSupport) (source : DataSource) :
    (Call.sniffFFmpegFormat ∈ (MediaExtractor.Create (some ex) source none).calls
        ↔ (primaryConfidence source < 0.8 ∨ source.sniff.mime = MEDIA_MIMETYPE_AUDIO_WMA))
    ∧ (∀ (A : CStr) (m : Option AMessage), A ≠ MEDIA_MIMETYPE_AUDIO_WMA →
        source.sniff = ⟨true, A, 0.9, m⟩ →
          Call.sniffFFmpegFormat ∉ (MediaExtractor.Create (some ex) source none).calls
            ∧ autodetect (some ex) source = (some ⟨A, 0.9, m, false⟩, [Call.sniff])
            ∧ MediaExtractor.Create (some ex) source none
                = unwrapAndDispatch (some ex) source m false A [Call.sniff])
    ∧ (source.sniff.mime = "audio/wma".toList →
        Call.sniffFFmpegFormat ∈ (MediaExtractor.Create (some ex) source none).calls) := by
  have hiff := (Create_calls_sniffFFmpegFormat ex source).trans (autodetect_calls ex source)
  refine ⟨hiff, ?_, fun h => hiff.2 (Or.inr h)⟩
  intro A m hA hs
  have hpc : primaryConfidence source = 0.9 := by simp [primaryConfidence, hs]
  have hno : ¬ (primaryConfidence source < 0.8 ∨ source.sniff.mime = MEDIA_MIMETYPE_AUDIO_WMA) := by
    rw [hpc, hs]
    norm_num [hA]
  have hev : autodetect (some ex) source = (some ⟨A, 0.9, m, false⟩, [Call.sniff]) := by
    unfold autodetect
    simp only [strcmp_eq_zero_iff]
    rw [if_neg hno, hpc, hs]
  exact ⟨fun h => hno (hiff.1 h), hev, Create_of_autodetect _ _ _ _ hev⟩

theorem Create_secondary_trigger_witness :
    "video/mp4".toList ≠ MEDIA_MIMETYPE_AUDIO_WMA
      ∧ Call.sniffFFmpegFormat ∉ (MediaExtractor.Create
          (some (sniffingOnly ⟨true, "audio/flac".toList, 1, none⟩))
          (sourceOf "video/mp4".toList 0.9) none).calls
      ∧ Call.sniffFFmpegFormat ∈ (MediaExtractor.Create
          (some (sniffingOnly ⟨true, "audio/flac".toList, 1, none⟩))
          (sourceOf "audio/wma".toList 1) none).calls :=
  ⟨by decide,
    ((Create_secondary_trigger (sniffingOnly ⟨true, "audio/flac".toList, 1, none⟩)
      (sourceOf "video/mp4".toList 0.9)).2.1 "video/mp4".toList none (by decide) rfl).1,
    (Create_secondary_trigger (sniffingOnly ⟨true, "audio/flac".toList, 1, none⟩)
      (sourceOf "audio/wma".toList 1)).2.2 rfl⟩

/-- C9: in the build without the FFmpeg sniffer and without an explicit
format, a sniff that reports failure (whatever confidence it wrote) or that
reports confidence 0 makes `MediaExtractor::Create` return `NULL` right after
the sniff; a sniff that reports success with a confidence in (0, 1] makes it
go on to lines 107-185 with the sniffed identifier and metadata; so, for
confidences in [0, 1], the sniffing block succeeds exactly when the sniff
reports success with a positive confidence. -/
theorem Create_without_secondary (source : DataSource) :
    (source.sniff.ok = false → MediaExtractor.Create none source none = ⟨none, [Call.sniff]⟩)
    ∧ (source.sniff.confidence = 0 →
        MediaExtractor.Create none source none = ⟨none, [Call.sniff]⟩)
    ∧ (source.sniff.ok = true → 0 < source.sniff.confidence → source.sniff.confidence ≤ 1 →
        MediaExtractor.Create none source none
          = unwrapAndDispatch none source source.sniff.meta false source.sniff.mime
              [Call.sniff])
    ∧ (0 ≤ source.sniff.confidence → source.sniff.confidence ≤ 1 →
        ((autodetect none source).1 ≠ none
          ↔ (source.sniff.ok = true ∧ 0 < source.sniff.confidence))) := by
  refine ⟨?_, ?_, ?_, ?_⟩
  · intro hok
    apply Create_of_autodetect_none
    simp [autodetect, primaryConfidence, hok]
  · intro hc
    apply Create_of_autodetect_none
    simp [autodetect, primaryConfidence, hc]
  · intro hok hpos _
    have hev : autodetect none source
        = (some ⟨source.sniff.mime, source.sniff.confidence, source.sniff.meta, false⟩,
            [Call.sniff]) := by
      simp [autodetect, primaryConfidence, hok, ne_of_gt hpos]
    exact Create_of_autodetect _ _ _ _ hev
  · intro h0 _
    cases hok : source.sniff.ok
    · simp [autodetect, primaryConfidence, hok]
    · by_cases hc : source.sniff.confidence = 0
      · simp [autodetect, primaryConfidence, hok, hc]
      · have hpos : 0 < source.sniff.confidence := lt_of_le_of_ne h0 (Ne.symm hc)
        simp [autodetect, primaryConfidence, hok, hc, hpos]

theorem Create_without_secondary_witness :
    (sourceOf "audio/mpeg".toList 1).sniff.ok = true
      ∧ 0 < (sourceOf "audio/mpeg".toList 1).sniff.confidence
      ∧ (sourceOf "audio/mpeg".toList 1).sniff.confidence ≤ 1
      ∧ MediaExtractor.Create none (sourceOf "audio/mpeg".toList 1) none
          = ⟨some ⟨.MP3Extractor (sourceOf "audio/mpeg".toList 1) none, some false⟩,
              [Call.sniff]⟩
      ∧ MediaExtractor.Create none silentSource none = ⟨none, [Call.sniff]⟩ :=
  ⟨rfl, by simp [sourceOf], by simp [sourceOf],
    ((Create_without_secondary (sourceOf "audio/mpeg".toList 1)).2.2.1 rfl
      (by simp [sourceOf]) (by simp [sourceOf])).trans rfl,
    (Create_without_secondary silentSource).1 rfl⟩

/-- C10, the claim as stated fails: the primary sniff reports failure and the
FFmpeg sniffer reports success for `video/mp4` with confidence 0, so neither
confidence is positive, yet `MediaExtractor::Create` takes the FFmpeg
identifier, calls `createFFmpegExtractor` on it and returns the
MPEG4Extractor of the dispatch table. -/
theorem Create_both_zero_counterexample :
    primaryConfidence silentSource = 0
      ∧ ((sniffingOnly ⟨true, "video/mp4".toList, 0, none⟩).sniffFFmpegFormat
          silentSource).confidence = 0
      ∧ MediaExtractor.Create (some (sniffingOnly ⟨true, "video/mp4".toList, 0, none⟩))
          silentSource none
          = ⟨some ⟨.MPEG4Extractor silentSource, some false⟩,
              [Call.sniff, Call.sniffFFmpegFormat,
                Call.createFFmpegExtractor "video/mp4".toList]⟩ := by
  have hev : autodetect (some (sniffingOnly ⟨true, "video/mp4".toList, 0, none⟩)) silentSource
      = (some ⟨"video/mp4".toList, 0, none, true⟩, [Call.sniff, Call.sniffFFmpegFormat]) := by
    norm_num [autodetect, primaryConfidence, silentSource, sniffingOnly]
  refine ⟨rfl, rfl, ?_⟩
  rw [Create_of_autodetect _ _ _ _ hev]
  rfl

/-- C10 as amended: in the build with the FFmpeg sniffer and without an
explicit format, when the primary confidence (0 after a primary sniff that
reported failure) is not positive and the FFmpeg sniffer reports failure,
`MediaExtractor::Create` returns `NULL` right after the two sniffer calls,
whatever confidence the FFmpeg sniffer wrote: neither lines 107-185 nor a
factory of the Amlogic library is reached. -/
theorem Create_both_sniffers_fail (ex : AmlogicMediaExSupport) (source : DataSource)
    (hp : primaryConfidence source ≤ 0) (hs : (ex.sniffFFmpegFormat source).ok = false) :
    MediaExtractor.Create (some ex) source none
      = ⟨none, [Call.sniff, Call.sniffFFmpegFormat]⟩ := by
  apply Create_of_autodetect_none
  have htrig : primaryConfidence source < 0.8
      ∨ source.sniff.mime = MEDIA_MIMETYPE_AUDIO_WMA :=
    Or.inl (lt_of_le_of_lt hp (by norm_num))
  unfold autodetect
  simp only [strcmp_eq_zero_iff]
  rw [if_pos htrig, if_pos ⟨by simp [hs], hp⟩]

theorem Create_both_sniffers_fail_witness :
    primaryConfidence silentSource ≤ 0
      ∧ ((sniffingOnly ⟨false, [], 1, none⟩).sniffFFmpegFormat silentSource).ok = false
      ∧ MediaExtractor.Create (some (sniffingOnly ⟨false, [], 1, none⟩)) silentSource none
          = ⟨none, [Call.sniff, Call.sniffFFmpegFormat]⟩ :=
  ⟨by simp [primaryConfidence, silentSource], rfl,
    Create_both_sniffers_fail (sniffingOnly ⟨false, [], 1, none⟩) silentSource
      (by simp [primaryConfidence, silentSource]) rfl⟩


/-- C11, the claim as stated fails: primary and FFmpeg sniffer both answer
`audio/mpeg` with confidence 0.5; the FFmpeg sniffer is asked (0.5 < 0.8), its
confidence is positive and equal to the primary one, and the result is not
marked as coming from the FFmpeg sniffer. -/
theorem autodetect_tie_counterexample :
    autodetect (some (sniffingOnly ⟨true, "audio/mpeg".toList, 0.5, none⟩))
        (sourceOf "audio/mpeg".toList 0.5)
      = (some ⟨"audio/mpeg".toList, 0.5, none, false⟩,
          [Call.sniff, Call.sniffFFmpegFormat]) := by
  norm_num [autodetect, primaryConfidence, sourceOf, sniffingOnly, strcmp_eq_zero_iff]

/-- C11 as amended: in the build with the FFmpeg sniffer, whenever that
sniffer is asked and reports a positive confidence equal to the primary
confidence, the sniffing block succeeds with the FFmpeg sniffer's identifier
and confidence, and the result is marked as coming from the FFmpeg sniffer
exactly when the two identifiers differ; when they agree the primary result,
which is the same identifier and confidence, stands unmarked. -/
theorem autodetect_tie (ex : AmlogicMediaExSupport) (source : DataSource)
    (hcons : Call.sniffFFmpegFormat ∈ (autodetect (some ex) source).2)
    (hpos : 0 < (ex.sniffFFmpegFormat source).confidence)
    (heq : (ex.sniffFFmpegFormat source).confidence = primaryConfidence source) :
    ∃ d : Detected, autodetect (some ex) source = (some d, [Call.sniff, Call.sniffFFmpegFormat])
      ∧ d.tmp = (ex.sniffFFmpegFormat source).mime
      ∧ d.confidence = (ex.sniffFFmpegFormat source).confidence
      ∧ (d.is_sniff_from_ffmpeg = true
          ↔ (ex.sniffFFmpegFormat source).mime ≠ source.sniff.mime) := by
  have htrig := (autodetect_calls ex source).1 hcons
  have hp : 0 < primaryConfidence source := heq ▸ hpos
  have hfail : ¬ ((!(ex.sniffFFmpegFormat source).ok) = true ∧ primaryConfidence source ≤ 0) :=
    fun h => absurd hp (not_lt.2 h.2)
  by_cases hid : (ex.sniffFFmpegFormat source).mime = source.sniff.mime
  · refine ⟨⟨source.sniff.mime, primaryConfidence source, source.sniff.meta, false⟩,
      ?_, hid.symm, heq.symm, by simp [hid]⟩
    unfold autodetect
    simp only [strcmp_eq_zero_iff, ne_eq]
    rw [if_pos htrig, if_neg hfail, if_neg]
    rw [heq]
    simp [hid, ne_of_gt hp]
  · refine ⟨⟨(ex.sniffFFmpegFormat source).mime, (ex.sniffFFmpegFormat source).confidence,
      source.sniff.meta, true⟩, ?_, rfl, rfl, by simp [hid]⟩
    unfold autodetect
    simp only [strcmp_eq_zero_iff, ne_eq]
    rw [if_pos htrig, if_neg hfail, if_pos (Or.inr (Or.inr ⟨hpos, hid⟩))]

theorem autodetect_tie_witness :
    ∃ d : Detected,
      autodetect (some (sniffingOnly ⟨true, "audio/flac".toList, 1, none⟩))
          (sourceOf "audio/wma".toList 1)
        = (some d, [Call.sniff, Call.sniffFFmpegFormat])
      ∧ d.tmp = "audio/flac".toList ∧ d.confidence = 1
      ∧ (d.is_sniff_from_ffmpeg = true ↔ "audio/flac".toList ≠ "audio/wma".toList) :=
  autodetect_tie (sniffingOnly ⟨true, "audio/flac".toList, 1, none⟩)
    (sourceOf "audio/wma".toList 1)
    ((autodetect_calls _ _).2 (Or.inr rfl))
    (by simp [sniffingOnly]) (by simp [sniffingOnly, sourceOf, primaryConfidence])


/-- C12, the claim as stated fails: the primary sniff recognises nothing, the
FFmpeg sniffer answers `video/mp4`, and `createFFmpegExtractor` builds an
extractor of its own; `MediaExtractor::Create` returns that extractor although
`video/mp4` is an identifier of the dispatch table, whose MPEG4Extractor is
what the same identifier gives when it is explicit. -/
theorem Create_table_first_counterexample :
    MediaExtractor.Create (some (ffmpegLibrary ⟨true, "video/mp4".toList, 1, none⟩))
        silentSource none
      = ⟨some ⟨.foreign 0, some false⟩,
          [Call.sniff, Call.sniffFFmpegFormat, Call.createFFmpegExtractor "video/mp4".toList]⟩
    ∧ MediaExtractor.Create (some (ffmpegLibrary ⟨true, "video/mp4".toList, 1, none⟩))
        silentSource (some "video/mp4".toList)
      = ⟨some ⟨.MPEG4Extractor silentSource, some false⟩, []⟩ := by
  have hev : autodetect (some (ffmpegLibrary ⟨true, "video/mp4".toList, 1, none⟩)) silentSource
      = (some ⟨"video/mp4".toList, 1, none, true⟩, [Call.sniff, Call.sniffFFmpegFormat]) := by
    norm_num [autodetect, primaryConfidence, silentSource, ffmpegLibrary]
  refine ⟨?_, rfl⟩
  rw [Create_of_autodetect _ _ _ _ hev]
  rfl

/-- C12 as amended: for an identifier, as it reaches lines 129-185, that
equals an identifier of the dispatch table up to case, and that either did not
come from the FFmpeg sniffer or for which `createFFmpegExtractor` builds
nothing, what is returned is the extractor of the table (with the DRM flag
applied, the WVMExtractor excepted), and `createAmExExtractor` is not asked,
whatever it would build. An explicit identifier and a sniffed one reach those
lines unchanged. When the identifier came from the FFmpeg sniffer,
`createFFmpegExtractor` is asked before the table: its call is the first one
that lines 129-185 add, and what it builds is returned, with the DRM flag
applied, without the table being looked at; when the identifier did not come
from the FFmpeg sniffer, no call is added. -/
theorem dispatch_table_entry (am : Option AmlogicMediaExSupport) (source : DataSource)
    (meta : Option AMessage) (ff : Bool) (mime id : CStr) (isDrm : Bool) (calls : List Call)
    (hid : id ∈ dispatchIdentifiers) (h : eqUpToAsciiCase mime id = true) :
    ((ff = false ∨ ∀ ex, am = some ex → ex.createFFmpegExtractor source mime = none) →
        ((∃ e, dispatchTable source meta id = .assign (some e)
            ∧ (dispatch am source meta ff mime isDrm calls).ret = some (e.setDrmFlag isDrm))
          ∨ (∃ e, dispatchTable source meta id = .returnNow e
            ∧ (dispatch am source meta ff mime isDrm calls).ret = some e))
        ∧ (∀ m μ,
            Call.createAmExExtractor m μ ∈ (dispatch am source meta ff mime isDrm calls).calls
              → Call.createAmExExtractor m μ ∈ calls))
      ∧ MediaExtractor.Create am source (some mime)
          = dispatch am source none false mime false []
      ∧ (∀ d calls0, autodetect am source = (some d, calls0) → d.tmp = mime →
          MediaExtractor.Create am source none
            = dispatch am source d.meta d.is_sniff_from_ffmpeg mime false calls0)
      ∧ (∀ ex, am = some ex → ff = true →
          calls ++ [Call.createFFmpegExtractor mime]
              <+: (dispatch am source meta ff mime isDrm calls).calls
            ∧ ∀ e0, ex.createFFmpegExtractor source mime = some e0 →
                dispatch am source meta ff mime isDrm calls
                  = ⟨some (e0.setDrmFlag isDrm), calls ++ [Call.createFFmpegExtractor mime]⟩)
      ∧ (ff = false → (dispatch am source meta ff mime isDrm calls).calls = calls) := by
  have hl : mime.map tolower = id.map tolower := (eqUpToAsciiCase_iff mime id).1 h
  have hnd := not_drm_of_dispatchIdentifier mime id hid hl
  have ht := dispatchTable_congr source meta mime id hl
  have hcalls : ∀ (o : Outcome),
      (o.calls = calls ∨ o.calls = calls ++ [Call.createFFmpegExtractor mime])
      → ∀ m μ, Call.createAmExExtractor m μ ∈ o.calls → Call.createAmExExtractor m μ ∈ calls := by
    intro o ho m μ hm
    rcases ho with ho | ho
    · rwa [ho] at hm
    · rw [ho] at hm
      simpa using hm
  refine ⟨fun hff => ⟨?_, ?_⟩, unwrapAndDispatch_of_not_drm am source none false mime [] hnd,
    ?_, ?_, ?_⟩
  · rcases dispatchTable_of_identifier source meta id hid with ⟨e, he⟩ | ⟨e, he⟩
    · exact Or.inl ⟨e, he,
        (dispatch_ret_of_assign am source meta ff mime isDrm calls e hff (ht.trans he)).1⟩
    · exact Or.inr ⟨e, he,
        (dispatch_ret_of_returnNow am source meta ff mime isDrm calls e hff (ht.trans he)).1⟩
  · rcases dispatchTable_of_identifier source meta id hid with ⟨e, he⟩ | ⟨e, he⟩
    · exact hcalls _
        (dispatch_ret_of_assign am source meta ff mime isDrm calls e hff (ht.trans he)).2
    · exact hcalls _
        (dispatch_ret_of_returnNow am source meta ff mime isDrm calls e hff (ht.trans he)).2
  · intro d calls0 hd hm
    rw [Create_of_autodetect am source d calls0 hd, hm]
    exact unwrapAndDispatch_of_not_drm am source d.meta d.is_sniff_from_ffmpeg mime calls0 hnd
  · intro ex hex hff
    subst hex hff
    have hsome : ∀ e0, ex.createFFmpegExtractor source mime = some e0 →
        dispatch (some ex) source meta true mime isDrm calls
          = ⟨some (e0.setDrmFlag isDrm), calls ++ [Call.createFFmpegExtractor mime]⟩ := by
      intro e0 hf
      cases isDrm <;> simp [dispatch, hf, fallbackAndFinish, finish]
    refine ⟨?_, hsome⟩
    cases hf : ex.createFFmpegExtractor source mime with
    | some e0 => rw [hsome e0 hf]
    | none =>
      rcases dispatchTable_of_identifier source meta id hid with ⟨e, he⟩ | ⟨e, he⟩
      · have : (dispatch (some ex) source meta true mime isDrm calls).calls
            = calls ++ [Call.createFFmpegExtractor mime] := by
          cases isDrm <;> simp [dispatch, hf, ht.trans he, fallbackAndFinish, finish]
        rw [this]
      · have : (dispatch (some ex) source meta true mime isDrm calls).calls
            = calls ++ [Call.createFFmpegExtractor mime] := by
          simp [dispatch, hf, ht.trans he]
        rw [this]
  · intro hff
    subst hff
    rcases dispatchTable_of_identifier source meta id hid with ⟨e, he⟩ | ⟨e, he⟩
    · rw [dispatch_of_assign am source meta mime isDrm calls e (ht.trans he)]
    · rw [dispatch_of_returnNow am source meta mime isDrm calls e (ht.trans he)]

theorem dispatch_table_entry_witness :
    "audio/mpeg".toList ∈ dispatchIdentifiers
      ∧ eqUpToAsciiCase "Audio/MPEG".toList "audio/mpeg".toList = true
      ∧ ((∃ e, dispatchTable silentSource none "audio/mpeg".toList = .assign (some e)
            ∧ (dispatch (some (ffmpegLibrary ⟨false, [], 0, none⟩)) silentSource none false
                "Audio/MPEG".toList false []).ret = some (e.setDrmFlag false))
          ∨ (∃ e, dispatchTable silentSource none "audio/mpeg".toList = .returnNow e
            ∧ (dispatch (some (ffmpegLibrary ⟨false, [], 0, none⟩)) silentSource none false
                "Audio/MPEG".toList false []).ret = some e))
      ∧ (dispatch (some (ffmpegLibrary ⟨false, [], 0, none⟩)) silentSource none false
          "Audio/MPEG".toList false [Call.sniff]).calls = [Call.sniff]
      ∧ (ffmpegLibrary ⟨true, "Audio/MPEG".toList, 1, none⟩).createFFmpegExtractor silentSource
          "Audio/MPEG".toList = some ⟨.foreign 0, none⟩
      ∧ dispatch (some (ffmpegLibrary ⟨true, "Audio/MPEG".toList, 1, none⟩)) silentSource none
          true "Audio/MPEG".toList false [Call.sniff, Call.sniffFFmpegFormat]
          = ⟨some ((⟨.foreign 0, none⟩ : MediaExtractor).setDrmFlag false),
              [Call.sniff, Call.sniffFFmpegFormat]
                ++ [Call.createFFmpegExtractor "Audio/MPEG".toList]⟩
      ∧ [Call.sniff, Call.sniffFFmpegFormat] ++ [Call.createFFmpegExtractor "Audio/MPEG".toList]
          <+: (dispatch (some (sniffingOnly ⟨true, "Audio/MPEG".toList, 1, none⟩)) silentSource
                none true "Audio/MPEG".toList false [Call.sniff, Call.sniffFFmpegFormat]).calls :=
  ⟨by decide, by decide,
    ((dispatch_table_entry (some (ffmpegLibrary ⟨false, [], 0, none⟩)) silentSource none false
      "Audio/MPEG".toList "audio/mpeg".toList false [] (by decide) (by decide)).1
      (Or.inl rfl)).1,
    (dispatch_table_entry (some (ffmpegLibrary ⟨false, [], 0, none⟩)) silentSource none false
      "Audio/MPEG".toList "audio/mpeg".toList false [Call.sniff] (by decide)
      (by decide)).2.2.2.2 rfl,
    rfl,
    ((dispatch_table_entry (some (ffmpegLibrary ⟨true, "Audio/MPEG".toList, 1, none⟩))
      silentSource none true "Audio/MPEG".toList "audio/mpeg".toList false
      [Call.sniff, Call.sniffFFmpegFormat] (by decide) (by decide)).2.2.2.1 _ rfl rfl).2 _ rfl,
    ((dispatch_table_entry (some (sniffingOnly ⟨true, "Audio/MPEG".toList, 1, none⟩))
      silentSource none true "Audio/MPEG".toList "audio/mpeg".toList false
      [Call.sniff, Call.sniffFFmpegFormat] (by decide) (by decide)).2.2.2.1 _ rfl rfl).1⟩

/-- C13: in the build with the FFmpeg sniffer, for a primary sniff that
succeeds with a positive confidence and an identifier of the dispatch table
(up to case), an FFmpeg sniffer that reports confidence 0 (the confidence of a
failure, whatever its boolean result) changes nothing: `MediaExtractor::Create`
returns the extractor, with the DRM flag, that the build without the Amlogic
support returns, and it asks neither factory of the Amlogic library, whatever
they would build. -/
theorem Create_secondary_failure (ex : AmlogicMediaExSupport) (source : DataSource) (id : CStr)
    (hid : id ∈ dispatchIdentifiers) (hok : source.sniff.ok = true)
    (hpos : 0 < source.sniff.confidence)
    (h : eqUpToAsciiCase source.sniff.mime id = true)
    (hc : (ex.sniffFFmpegFormat source).confidence = 0) :
    (MediaExtractor.Create (some ex) source none).ret
        = (MediaExtractor.Create none source none).ret
      ∧ (MediaExtractor.Create none source none).ret ≠ none
      ∧ ∀ c ∈ (MediaExtractor.Create (some ex) source none).calls,
          c = Call.sniff ∨ c = Call.sniffFFmpegFormat := by
  have hl : source.sniff.mime.map tolower = id.map tolower := (eqUpToAsciiCase_iff _ _).1 h
  have hnd := not_drm_of_dispatchIdentifier _ id hid hl
  have hpc : primaryConfidence source = source.sniff.confidence := by
    simp [primaryConfidence, hok]
  have hpos' : 0 < primaryConfidence source := hpc ▸ hpos
  obtain ⟨calls, hev, hcalls⟩ := autodetect_secondary_failed ex source hpos' hc
  have hev0 : autodetect none source
      = (some ⟨source.sniff.mime, primaryConfidence source, source.sniff.meta, false⟩,
          [Call.sniff]) := by
    unfold autodetect
    simp only
    rw [if_neg (ne_of_gt hpos')]
  rw [Create_of_autodetect _ _ _ _ hev, Create_of_autodetect _ _ _ _ hev0,
    unwrapAndDispatch_of_not_drm _ _ _ _ _ _ hnd, unwrapAndDispatch_of_not_drm _ _ _ _ _ _ hnd]
  refine ⟨dispatch_ret_of_identifier _ _ _ _ _ id _ _ _ hid hl (Or.inl rfl), ?_, ?_⟩
  · rcases dispatchTable_of_identifier source source.sniff.meta id hid with ⟨e, he⟩ | ⟨e, he⟩
    · rw [(dispatch_ret_of_assign none source _ false _ false [Call.sniff] e (Or.inl rfl)
        ((dispatchTable_congr source _ _ id hl).trans he)).1]
      simp
    · rw [(dispatch_ret_of_returnNow none source _ false _ false [Call.sniff] e (Or.inl rfl)
        ((dispatchTable_congr source _ _ id hl).trans he)).1]
      simp
  · have hd : (dispatch (some ex) source source.sniff.meta false source.sniff.mime false
        calls).calls = calls := by
      rcases dispatchTable_of_identifier source source.sniff.meta id hid with ⟨e, he⟩ | ⟨e, he⟩
      · rw [dispatch_of_assign (some ex) source _ _ false calls e
          ((dispatchTable_congr source _ _ id hl).trans he)]
      · rw [dispatch_of_returnNow (some ex) source _ _ false calls e
          ((dispatchTable_congr source _ _ id hl).trans he)]
    rw [hd]
    exact hcalls

theorem Create_secondary_failure_witness :
    "audio/mpeg".toList ∈ dispatchIdentifiers
      ∧ (sourceOf "Audio/Mpeg".toList 0.5).sniff.ok = true
      ∧ 0 < (sourceOf "Audio/Mpeg".toList 0.5).sniff.confidence
      ∧ eqUpToAsciiCase (sourceOf "Audio/Mpeg".toList 0.5).sniff.mime "audio/mpeg".toList
          = true
      ∧ (ffmpegLibrary ⟨false, [], 0, none⟩).sniffFFmpegFormat (sourceOf "Audio/Mpeg".toList 0.5)
          = ⟨false, [], 0, none⟩
      ∧ Call.sniffFFmpegFormat
          ∈ (MediaExtractor.Create (some (ffmpegLibrary ⟨false, [], 0, none⟩))
              (sourceOf "Audio/Mpeg".toList 0.5) none).calls
      ∧ (MediaExtractor.Create (some (ffmpegLibrary ⟨false, [], 0, none⟩))
            (sourceOf "Audio/Mpeg".toList 0.5) none).ret
          = (MediaExtractor.Create none (sourceOf "Audio/Mpeg".toList 0.5) none).ret
      ∧ (MediaExtractor.Create none (sourceOf "Audio/Mpeg".toList 0.5) none).ret ≠ none
      ∧ ∀ c ∈ (MediaExtractor.Create (some (ffmpegLibrary ⟨false, [], 0, none⟩))
            (sourceOf "Audio/Mpeg".toList 0.5) none).calls,
          c = Call.sniff ∨ c = Call.sniffFFmpegFormat :=
  ⟨by decide, rfl, by norm_num [sourceOf], by decide, rfl,
    (Create_calls_sniffFFmpegFormat _ _).2 ((autodetect_calls _ _).2
      (Or.inl (by norm_num [primaryConfidence, sourceOf]))),
    Create_secondary_failure (ffmpegLibrary ⟨false, [], 0, none⟩)
      (sourceOf "Audio/Mpeg".toList 0.5) "audio/mpeg".toList (by decide) rfl
      (by norm_num [sourceOf]) (by decide) rfl⟩

/-- C14: an explicit format that does not start with `drm+` and equals no
identifier of the dispatch table, even up to case, yields `NULL`, in the build
without the Amlogic support and in the build with it when
`createAmExExtractor` builds nothing for it; no sniffer and no other factory
is asked. -/
theorem Create_unknown_format (am : Option AmlogicMediaExSupport) (source : DataSource)
    (s : CStr) (hnd : ¬ "drm+".toList <+: s)
    (hno : ∀ id ∈ dispatchIdentifiers, eqUpToAsciiCase s id = false)
    (hx : ∀ ex, am = some ex → ex.createAmExExtractor source s none = none) :
    (MediaExtractor.Create am source (some s)).ret = none
      ∧ ∀ c ∈ (MediaExtractor.Create am source (some s)).calls,
          c = Call.createAmExExtractor s none := by
  have ht := dispatchTable_of_no_identifier source none s hno
  have hC : MediaExtractor.Create am source (some s)
      = dispatch am source none false s false [] :=
    unwrapAndDispatch_of_not_drm am source none false s [] hnd
  rw [hC]
  cases am with
  | none => simp [dispatch, ht, fallbackAndFinish, finish]
  | some ex => simp [dispatch, ht, fallbackAndFinish, finish, hx ex rfl]

theorem Create_unknown_format_witness :
    (MediaExtractor.Create none silentSource (some MEDIA_MIMETYPE_VIDEO_AVC)).ret = none
      ∧ (MediaExtractor.Create none silentSource (some MEDIA_MIMETYPE_AUDIO_AAC)).ret = none
      ∧ (MediaExtractor.Create none silentSource (some MEDIA_MIMETYPE_AUDIO_WMA)).ret = none
      ∧ (MediaExtractor.Create none silentSource (some MEDIA_MIMETYPE_CONTAINER_AVI)).ret = none
      ∧ (MediaExtractor.Create none silentSource (some [])).ret = none
      ∧ (MediaExtractor.Create (some (ffmpegLibrary ⟨false, [], 0, none⟩)) silentSource
          (some MEDIA_MIMETYPE_CONTAINER_AVI)).ret = none :=
  ⟨(Create_unknown_format none silentSource MEDIA_MIMETYPE_VIDEO_AVC (by decide) (by decide)
      (fun _ h => Option.noConfusion h)).1,
    (Create_unknown_format none silentSource MEDIA_MIMETYPE_AUDIO_AAC (by decide) (by decide)
      (fun _ h => Option.noConfusion h)).1,
    (Create_unknown_format none silentSource MEDIA_MIMETYPE_AUDIO_WMA (by decide) (by decide)
      (fun _ h => Option.noConfusion h)).1,
    (Create_unknown_format none silentSource MEDIA_MIMETYPE_CONTAINER_AVI (by decide) (by decide)
      (fun _ h => Option.noConfusion h)).1,
    (Create_unknown_format none silentSource [] (by decide) (by decide)
      (fun _ h => Option.noConfusion h)).1,
    (Create_unknown_format (some (ffmpegLibrary ⟨false, [], 0, none⟩)) silentSource
      MEDIA_MIMETYPE_CONTAINER_AVI (by decide) (by decide)
      (fun _ h => Option.some.inj h ▸ rfl)).1⟩


/-- C15, the claim as stated fails in the build with the Amlogic support: for
the explicit format `video/avi`, which no entry of the dispatch table takes,
line 170 hands the source to `createAmExExtractor`; with a library that builds
an extractor for one source and nothing for another, the same explicit format
yields an extractor on the first source and `NULL` on the second, two sources
that sniff differently. -/
theorem Create_explicit_counterexample :
    (sourceOf "video/avi".toList 1).sniff ≠ silentSource.sniff
      ∧ (MediaExtractor.Create (some selectiveLibrary) (sourceOf "video/avi".toList 1)
          (some "video/avi".toList)).summary = some (.foreign 1, some false)
      ∧ (MediaExtractor.Create (some selectiveLibrary) silentSource
          (some "video/avi".toList)).summary = none := by
  refine ⟨?_, rfl, rfl⟩
  intro h
  exact absurd (congrArg SniffResult.ok h) (by decide)

/-- C15 as amended: with an explicit format, `MediaExtractor::Create` calls
neither the source's sniffer nor the FFmpeg sniffer, nor
`createFFmpegExtractor`, and hands no metadata to `createAmExExtractor`; the
outcome (failure, or the class of the extractor and its DRM flag) is the same
on two sources for the same explicit format in the build without the Amlogic
support, and in the build with it whenever `createAmExExtractor` builds the
same class of extractor, or nothing, on both sources. -/
theorem Create_explicit_ignores_sniff (am : Option AmlogicMediaExSupport)
    (s1 s2 : DataSource) (mime : CStr) :
    (∀ c ∈ (MediaExtractor.Create am s1 (some mime)).calls,
        ∃ m, c = Call.createAmExExtractor m none)
      ∧ ((∀ ex, am = some ex → ∀ m,
            (ex.createAmExExtractor s1 m none).map (fun e => e.built.type)
              = (ex.createAmExExtractor s2 m none).map (fun e => e.built.type)) →
          (MediaExtractor.Create am s1 (some mime)).summary
            = (MediaExtractor.Create am s2 (some mime)).summary)
      ∧ (MediaExtractor.Create none s1 (some mime)).summary
          = (MediaExtractor.Create none s2 (some mime)).summary := by
  refine ⟨?_, fun hx => unwrapAndDispatch_summary am s1 s2 none mime [] [] hx,
    unwrapAndDispatch_summary none s1 s2 none mime [] [] (fun _ h => Option.noConfusion h)⟩
  intro c hc
  have hsub := unwrapAndDispatch_calls_subset am s1 none false mime [] c hc
  rcases hsub with h | ⟨m, h⟩ | h
  · simp at h
  · exfalso
    subst h
    have hnd : ∀ m' isDrm, Call.createFFmpegExtractor m
        ∉ (dispatch am s1 none false m' isDrm []).calls := by
      intro m' isDrm hm
      unfold dispatch at hm
      cases am with
      | none =>
        simp only at hm
        cases ht : dispatchTable s1 none m' with
        | returnNow e => rw [ht] at hm; simp at hm
        | assign ret =>
          rw [ht] at hm
          rcases fallbackAndFinish_calls_subset _ _ _ _ _ _ _ _ hm with h | h
          · simp at h
          · simp at h
      | some ex =>
        simp only [Bool.false_eq_true, if_false] at hm
        cases ht : dispatchTable s1 none m' with
        | returnNow e => rw [ht] at hm; simp at hm
        | assign ret =>
          rw [ht] at hm
          rcases fallbackAndFinish_calls_subset _ _ _ _ _ _ _ _ hm with h | h
          · simp at h
          · simp at h
    have hc' : Call.createFFmpegExtractor m ∈ (unwrapAndDispatch am s1 none false mime []).calls :=
      hc
    unfold unwrapAndDispatch at hc'
    split at hc'
    · split at hc'
      · simp at hc'
      · simp only at hc'
        split at hc'
        · simp at hc'
        · split at hc'
          · exact hnd _ _ hc'
          · simp at hc'
    · exact hnd _ _ hc'
  · exact h

theorem Create_explicit_ignores_sniff_witness :
    (MediaExtractor.Create (some (ffmpegLibrary ⟨true, "audio/flac".toList, 1, none⟩))
        (sourceOf "audio/mpeg".toList 1) (some "video/mp4".toList)).summary
      = (MediaExtractor.Create (some (ffmpegLibrary ⟨true, "audio/flac".toList, 1, none⟩))
          silentSource (some "video/mp4".toList)).summary :=
  (Create_explicit_ignores_sniff (some (ffmpegLibrary ⟨true, "audio/flac".toList, 1, none⟩))
    (sourceOf "audio/mpeg".toList 1) silentSource "video/mp4".toList).2.1
    (fun _ h _ => Option.some.inj h ▸ rfl)


/-- C16, the claim as stated fails: `video/wvm` does not start with `drm+`,
yet the WVMExtractor is returned with no DRM flag applied, not with the flag
set to false (line 160 returns before lines 176-182); and the DRMExtractor of
`drm+es_based+x` is returned by line 120 with no DRM flag applied either. -/
theorem Create_drm_flag_counterexample :
    ¬ "drm+".toList <+: "video/wvm".toList
      ∧ (MediaExtractor.Create none silentSource (some "video/wvm".toList)).ret
          = some ⟨.WVMExtractor silentSource, none⟩
      ∧ (MediaExtractor.Create none silentSource (some "drm+es_based+x".toList)).ret
          = some ⟨.DRMExtractor silentSource "x".toList, none⟩ :=
  ⟨by decide, rfl, rfl⟩

/-- C16 as amended: an extractor that `MediaExtractor::Create` returns, for an
identifier that is the explicit format or else the detected one, is one of:
an extractor with `setDrmFlag(true)` applied, the identifier being a
`drm+container_based+` wrapper; an extractor with `setDrmFlag(false)` applied,
the identifier not starting with `drm+`; the DRMExtractor of a
`drm+es_based+` identifier, with no flag applied; the WVMExtractor of the
dispatch table, with no flag applied, the identifier being a
`drm+container_based+` wrapper or not starting with `drm+`. The two early
returns are taken whenever they apply: an identifier `video/wvm` (up to case)
that did not come from the FFmpeg sniffer, bare or in a `drm+container_based+`
wrapper, yields the WVMExtractor with no flag applied, and a `drm+es_based+`
identifier yields the DRMExtractor with no flag applied. -/
theorem Create_drm_flag (am : Option AmlogicMediaExSupport) (source : DataSource)
    (mime : Option CStr) (e : MediaExtractor)
    (h : (MediaExtractor.Create am source mime).ret = some e) :
    (∃ id : CStr,
      (mime = some id
        ∨ (mime = none ∧ ∃ d calls, autodetect am source = (some d, calls) ∧ d.tmp = id))
      ∧ ((e.drmFlag = some true ∧ "drm+container_based+".toList <+: id)
        ∨ (e.drmFlag = some false ∧ ¬ "drm+".toList <+: id)
        ∨ (∃ rest, id = "drm+es_based+".toList ++ rest
            ∧ e = ⟨.DRMExtractor source rest, none⟩)
        ∨ (e = ⟨.WVMExtractor source, none⟩
            ∧ (¬ "drm+".toList <+: id ∨ "drm+container_based+".toList <+: id))))
      ∧ (∀ id : CStr, eqUpToAsciiCase id "video/wvm".toList = true →
          MediaExtractor.Create am source (some id) = ⟨some ⟨.WVMExtractor source, none⟩, []⟩
            ∧ MediaExtractor.Create am source (some ("drm+container_based+".toList ++ id))
                = ⟨some ⟨.WVMExtractor source, none⟩, []⟩
            ∧ ∀ (meta : Option AMessage) (calls : List Call),
                unwrapAndDispatch am source meta false id calls
                    = ⟨some ⟨.WVMExtractor source, none⟩, calls⟩
                  ∧ unwrapAndDispatch am source meta false
                      ("drm+container_based+".toList ++ id) calls
                    = ⟨some ⟨.WVMExtractor source, none⟩, calls⟩)
      ∧ (∀ (rest : CStr) (meta : Option AMessage) (ff : Bool) (calls : List Call),
          unwrapAndDispatch am source meta ff ("drm+es_based+".toList ++ rest) calls
            = ⟨some ⟨.DRMExtractor source rest, none⟩, calls⟩) := by
  refine ⟨?_, ?_, ?_⟩
  · cases mime with
    | some m =>
      exact ⟨m, Or.inl rfl, unwrapAndDispatch_ret_flag am source none false m [] e h⟩
    | none =>
      rcases hauto : autodetect am source with ⟨_ | d, calls⟩
      · rw [Create_of_autodetect_none am source calls hauto] at h
        simp at h
      · rw [Create_of_autodetect am source d calls hauto] at h
        exact ⟨d.tmp, Or.inr ⟨rfl, d, calls, rfl, rfl⟩,
          unwrapAndDispatch_ret_flag am source d.meta d.is_sniff_from_ffmpeg d.tmp calls e h⟩
  · intro id hw
    have hnd : ¬ "drm+".toList <+: id :=
      not_drm_of_dispatchIdentifier id "video/wvm".toList (by decide)
        ((eqUpToAsciiCase_iff _ _).1 hw)
    have key : ∀ (meta : Option AMessage) (calls : List Call),
        unwrapAndDispatch am source meta false id calls
            = ⟨some ⟨.WVMExtractor source, none⟩, calls⟩
          ∧ unwrapAndDispatch am source meta false
              ("drm+container_based+".toList ++ id) calls
            = ⟨some ⟨.WVMExtractor source, none⟩, calls⟩ := by
      intro meta calls
      have ht := dispatchTable_wvm source meta id hw
      constructor
      · rw [unwrapAndDispatch_of_not_drm am source meta false id calls hnd,
          dispatch_of_returnNow am source meta id false calls _ ht]
        rfl
      · have := unwrapAndDispatch_drm am source meta false "container_based".toList id calls
          (by decide)
        rw [if_neg (by decide), if_pos rfl,
          dispatch_of_returnNow am source meta id true calls _ ht] at this
        exact this
    exact ⟨(key none []).1, (key none []).2, key⟩
  · intro rest meta ff calls
    have := unwrapAndDispatch_drm am source meta ff "es_based".toList rest calls (by decide)
    rw [if_pos rfl] at this
    exact this

theorem Create_drm_flag_witness :
    (MediaExtractor.Create none silentSource
        (some "drm+container_based+audio/mpeg".toList)).ret
        = some ⟨.MP3Extractor silentSource none, some true⟩
      ∧ ∃ id : CStr,
        ((some "drm+container_based+audio/mpeg".toList : Option CStr) = some id
          ∨ ((some "drm+container_based+audio/mpeg".toList : Option CStr) = none
              ∧ ∃ d calls, autodetect none silentSource = (some d, calls) ∧ d.tmp = id))
        ∧ (((⟨.MP3Extractor silentSource none, some true⟩ : MediaExtractor).drmFlag = some true
              ∧ "drm+container_based+".toList <+: id)
          ∨ ((⟨.MP3Extractor silentSource none, some true⟩ : MediaExtractor).drmFlag
                = some false ∧ ¬ "drm+".toList <+: id)
          ∨ (∃ rest, id = "drm+es_based+".toList ++ rest
              ∧ (⟨.MP3Extractor silentSource none, some true⟩ : MediaExtractor)
                = ⟨.DRMExtractor silentSource rest, none⟩)
          ∨ ((⟨.MP3Extractor silentSource none, some true⟩ : MediaExtractor)
                = ⟨.WVMExtractor silentSource, none⟩
              ∧ (¬ "drm+".toList <+: id ∨ "drm+container_based+".toList <+: id))) :=
  ⟨rfl, (Create_drm_flag none silentSource (some "drm+container_based+audio/mpeg".toList)
    ⟨.MP3Extractor silentSource none, some true⟩ rfl).1⟩


/-- C17, the claim as stated fails: besides `MEDIA_MIMETYPE_VIDEO_VPX` and
`MEDIA_MIMETYPE_VIDEO_VP8`, the distinct names `MEDIA_MIMETYPE_AUDIO_EAC3` (line
65) and `MEDIA_MIMETYPE_AUDIO_EC3` (line 67) carry the same string,
`audio/eac3`. -/
theorem registry_alias_counterexample :
    ("MEDIA_MIMETYPE_AUDIO_EAC3", "audio/eac3".toList) ∈ registry
      ∧ ("MEDIA_MIMETYPE_AUDIO_EC3", "audio/eac3".toList) ∈ registry
      ∧ "MEDIA_MIMETYPE_AUDIO_EAC3" ≠ "MEDIA_MIMETYPE_AUDIO_EC3"
      ∧ MEDIA_MIMETYPE_AUDIO_EAC3 = MEDIA_MIMETYPE_AUDIO_EC3 := by
  refine ⟨by decide, by decide, by decide, rfl⟩

/-- C17 as amended: in the registry of MediaDefs.cpp exactly two pairs of
distinct names carry the same string, `MEDIA_MIMETYPE_VIDEO_VPX` with
`MEDIA_MIMETYPE_VIDEO_VP8` (`video/x-vnd.on2.vp8`) and
`MEDIA_MIMETYPE_AUDIO_EAC3` with `MEDIA_MIMETYPE_AUDIO_EC3` (`audio/eac3`);
the strings of all other pairs of distinct names differ. No name occurs
twice. -/
theorem registry_aliases :
    aliasedNames registry
        = [("MEDIA_MIMETYPE_VIDEO_VPX", "MEDIA_MIMETYPE_VIDEO_VP8"),
            ("MEDIA_MIMETYPE_AUDIO_EAC3", "MEDIA_MIMETYPE_AUDIO_EC3")]
      ∧ (registry.map Prod.fst).Nodup
      ∧ MEDIA_MIMETYPE_VIDEO_VPX = "video/x-vnd.on2.vp8".toList
      ∧ MEDIA_MIMETYPE_VIDEO_VP8 = "video/x-vnd.on2.vp8".toList
      ∧ MEDIA_MIMETYPE_AUDIO_EAC3 = "audio/eac3".toList
      ∧ MEDIA_MIMETYPE_AUDIO_EC3 = "audio/eac3".toList
      ∧ ∀ a ∈ registry, ∀ b ∈ registry, a.1 ≠ b.1 → a.2 = b.2 →
          ((a.1 = "MEDIA_MIMETYPE_VIDEO_VPX" ∧ b.1 = "MEDIA_MIMETYPE_VIDEO_VP8")
            ∨ (a.1 = "MEDIA_MIMETYPE_VIDEO_VP8" ∧ b.1 = "MEDIA_MIMETYPE_VIDEO_VPX")
            ∨ (a.1 = "MEDIA_MIMETYPE_AUDIO_EAC3" ∧ b.1 = "MEDIA_MIMETYPE_AUDIO_EC3")
            ∨ (a.1 = "MEDIA_MIMETYPE_AUDIO_EC3" ∧ b.1 = "MEDIA_MIMETYPE_AUDIO_EAC3")) := by
  have hlist : aliasedNames registry
      = [("MEDIA_MIMETYPE_VIDEO_VPX", "MEDIA_MIMETYPE_VIDEO_VP8"),
          ("MEDIA_MIMETYPE_AUDIO_EAC3", "MEDIA_MIMETYPE_AUDIO_EC3")] := by decide
  refine ⟨hlist, by decide, rfl, rfl, rfl, rfl, ?_⟩
  intro a ha b hb hne h
  have hc := aliasedNames_complete registry a b ha hb hne h
  rw [hlist] at hc
  simp only [List.mem_cons, List.mem_singleton, Prod.mk.injEq, List.not_mem_nil, or_false] at hc
  tauto

theorem registry_aliases_witness :
    ("MEDIA_MIMETYPE_VIDEO_VPX", MEDIA_MIMETYPE_VIDEO_VPX) ∈ registry
      ∧ ("MEDIA_MIMETYPE_VIDEO_VP8", MEDIA_MIMETYPE_VIDEO_VP8) ∈ registry
      ∧ "MEDIA_MIMETYPE_VIDEO_VPX" ≠ "MEDIA_MIMETYPE_VIDEO_VP8"
      ∧ MEDIA_MIMETYPE_VIDEO_VPX = MEDIA_MIMETYPE_VIDEO_VP8
      ∧ (("MEDIA_MIMETYPE_VIDEO_VPX" = "MEDIA_MIMETYPE_VIDEO_VPX"
            ∧ "MEDIA_MIMETYPE_VIDEO_VP8" = "MEDIA_MIMETYPE_VIDEO_VP8")
          ∨ ("MEDIA_MIMETYPE_VIDEO_VPX" = "MEDIA_MIMETYPE_VIDEO_VP8"
            ∧ "MEDIA_MIMETYPE_VIDEO_VP8" = "MEDIA_MIMETYPE_VIDEO_VPX")
          ∨ ("MEDIA_MIMETYPE_VIDEO_VPX" = "MEDIA_MIMETYPE_AUDIO_EAC3"
            ∧ "MEDIA_MIMETYPE_VIDEO_VP8" = "MEDIA_MIMETYPE_AUDIO_EC3")
          ∨ ("MEDIA_MIMETYPE_VIDEO_VPX" = "MEDIA_MIMETYPE_AUDIO_EC3"
            ∧ "MEDIA_MIMETYPE_VIDEO_VP8" = "MEDIA_MIMETYPE_AUDIO_EAC3")) :=
  ⟨by decide, by decide, by decide, rfl,
    registry_aliases.2.2.2.2.2.2 ("MEDIA_MIMETYPE_VIDEO_VPX", MEDIA_MIMETYPE_VIDEO_VPX)
      (by decide) ("MEDIA_MIMETYPE_VIDEO_VP8", MEDIA_MIMETYPE_VIDEO_VP8) (by decide)
      (by decide) rfl⟩


/-- C18: the default `MediaExtractor::flags()` has every bit of each of
`CAN_SEEK_BACKWARD`, `CAN_SEEK_FORWARD`, `CAN_PAUSE` and `CAN_SEEK` set, and no
bit that is in none of the four, whatever values below 2^32 the four
enumerators of `MediaExtractor.h` have. -/
theorem flags_default (CAN_SEEK_BACKWARD CAN_SEEK_FORWARD CAN_PAUSE CAN_SEEK : Nat)
    (hb : CAN_SEEK_BACKWARD < 2 ^ 32) (hf : CAN_SEEK_FORWARD < 2 ^ 32)
    (hp : CAN_PAUSE < 2 ^ 32) (hs : CAN_SEEK < 2 ^ 32) :
    MediaExtractor.flags CAN_SEEK_BACKWARD CAN_SEEK_FORWARD CAN_PAUSE CAN_SEEK
          &&& CAN_SEEK_BACKWARD = CAN_SEEK_BACKWARD
      ∧ MediaExtractor.flags CAN_SEEK_BACKWARD CAN_SEEK_FORWARD CAN_PAUSE CAN_SEEK
          &&& CAN_SEEK_FORWARD = CAN_SEEK_FORWARD
      ∧ MediaExtractor.flags CAN_SEEK_BACKWARD CAN_SEEK_FORWARD CAN_PAUSE CAN_SEEK
          &&& CAN_PAUSE = CAN_PAUSE
      ∧ MediaExtractor.flags CAN_SEEK_BACKWARD CAN_SEEK_FORWARD CAN_PAUSE CAN_SEEK
          &&& CAN_SEEK = CAN_SEEK
      ∧ ∀ i, (MediaExtractor.flags CAN_SEEK_BACKWARD CAN_SEEK_FORWARD CAN_PAUSE
            CAN_SEEK).testBit i = true →
          CAN_SEEK_BACKWARD.testBit i = true ∨ CAN_SEEK_FORWARD.testBit i = true
            ∨ CAN_PAUSE.testBit i = true ∨ CAN_SEEK.testBit i = true := by
  have hlt : CAN_SEEK_BACKWARD ||| CAN_SEEK_FORWARD ||| CAN_PAUSE ||| CAN_SEEK < 2 ^ 32 :=
    Nat.or_lt_two_pow (Nat.or_lt_two_pow (Nat.or_lt_two_pow hb hf) hp) hs
  have hfl : MediaExtractor.flags CAN_SEEK_BACKWARD CAN_SEEK_FORWARD CAN_PAUSE CAN_SEEK
      = CAN_SEEK_BACKWARD ||| CAN_SEEK_FORWARD ||| CAN_PAUSE ||| CAN_SEEK :=
    Nat.mod_eq_of_lt hlt
  rw [hfl]
  refine ⟨?_, ?_, ?_, ?_, ?_⟩
  · apply Nat.eq_of_testBit_eq
    intro i
    simp only [Nat.testBit_and, Nat.testBit_or]
    cases CAN_SEEK_BACKWARD.testBit i <;> simp
  · apply Nat.eq_of_testBit_eq
    intro i
    simp only [Nat.testBit_and, Nat.testBit_or]
    cases CAN_SEEK_FORWARD.testBit i <;> simp
  · apply Nat.eq_of_testBit_eq
    intro i
    simp only [Nat.testBit_and, Nat.testBit_or]
    cases CAN_PAUSE.testBit i <;> simp
  · apply Nat.eq_of_testBit_eq
    intro i
    simp only [Nat.testBit_and, Nat.testBit_or]
    cases CAN_SEEK.testBit i <;> simp
  · intro i hi
    simpa [Nat.testBit_or, or_assoc] using hi

theorem flags_default_witness :
    (1 : Nat) < 2 ^ 32 ∧ (2 : Nat) < 2 ^ 32 ∧ (4 : Nat) < 2 ^ 32 ∧ (8 : Nat) < 2 ^ 32
      ∧ MediaExtractor.flags 1 2 4 8 = 15
      ∧ MediaExtractor.flags 1 2 4 8 &&& 8 = 8 :=
  ⟨by decide, by decide, by decide, by decide, by decide,
    (flags_default 1 2 4 8 (by decide) (by decide) (by decide) (by decide)).2.2.2.1⟩


/-- C19: DRM unwrapping is single-level. For an inner identifier that itself
starts with `drm+`, `drm+container_based+<inner>` hands `<inner>` to lines
129-185 as it is, no identifier of the dispatch table equals it even up to
case, and in the build without the Amlogic support `MediaExtractor::Create`
returns `NULL`. -/
theorem Create_nested_drm (source : DataSource) (inner : CStr)
    (h : "drm+".toList <+: inner) :
    MediaExtractor.Create none source (some ("drm+container_based+".toList ++ inner))
        = ⟨none, []⟩
      ∧ (∀ am, MediaExtractor.Create am source (some ("drm+container_based+".toList ++ inner))
          = dispatch am source none false inner true [])
      ∧ (∀ id ∈ dispatchIdentifiers, eqUpToAsciiCase inner id = false)
      ∧ ∀ meta, dispatchTable source meta inner = .assign none := by
  have hw : ∀ am, MediaExtractor.Create am source
      (some ("drm+container_based+".toList ++ inner))
      = dispatch am source none false inner true [] := by
    intro am
    have := unwrapAndDispatch_drm am source none false "container_based".toList inner []
      (by decide)
    rw [if_neg (by decide), if_pos rfl] at this
    exact this
  have hno : ∀ id ∈ dispatchIdentifiers, eqUpToAsciiCase inner id = false := by
    intro id hid
    cases hc : eqUpToAsciiCase inner id with
    | false => rfl
    | true =>
      exact absurd h
        (not_drm_of_dispatchIdentifier inner id hid ((eqUpToAsciiCase_iff inner id).1 hc))
  have ht := fun meta => dispatchTable_of_no_identifier source meta inner hno
  refine ⟨?_, hw, hno, ht⟩
  rw [hw none]
  simp [dispatch, ht none, fallbackAndFinish, finish]

theorem Create_nested_drm_witness :
    "drm+".toList <+: "drm+es_based+x".toList
      ∧ MediaExtractor.Create none silentSource
          (some ("drm+container_based+".toList ++ "drm+es_based+x".toList)) = ⟨none, []⟩ :=
  ⟨by decide, (Create_nested_drm silentSource "drm+es_based+x".toList (by decide)).1⟩


/-- C20: the metadata that `MediaExtractor::Create` passes on is the `meta` of
line 63, which only the source's own sniff writes. Without an explicit format
the sniffing block keeps the primary sniff's metadata, also when the FFmpeg
sniffer's identifier and confidence override the primary ones (the FFmpeg
sniffer's metadata is dropped); every `createAmExExtractor` call is given that
metadata, and an MP3Extractor or AACExtractor that is returned was built with
it, unless a factory of the Amlogic library built the object. With an explicit
format the metadata is `NULL` in all those places. -/
theorem Create_meta (am : Option AmlogicMediaExSupport) (source : DataSource) :
    (∀ d calls, autodetect am source = (some d, calls) → d.meta = source.sniff.meta)
      ∧ (∀ m μ, Call.createAmExExtractor m μ ∈ (MediaExtractor.Create am source none).calls →
          μ = source.sniff.meta)
      ∧ (∀ mime m μ,
          Call.createAmExExtractor m μ ∈ (MediaExtractor.Create am source (some mime)).calls →
            μ = none)
      ∧ (∀ e s μ, (MediaExtractor.Create am source none).ret = some e →
          (e.built = .MP3Extractor s μ ∨ e.built = .AACExtractor s μ) →
            μ = source.sniff.meta ∨ ∃ ex m e0, am = some ex
              ∧ (ex.createFFmpegExtractor source m = some e0
                  ∨ ex.createAmExExtractor source m source.sniff.meta = some e0)
              ∧ e.built = e0.built)
      ∧ (∀ mime e s μ, (MediaExtractor.Create am source (some mime)).ret = some e →
          (e.built = .MP3Extractor s μ ∨ e.built = .AACExtractor s μ) →
            μ = none ∨ ∃ ex m e0, am = some ex
              ∧ (ex.createFFmpegExtractor source m = some e0
                  ∨ ex.createAmExExtractor source m none = some e0)
              ∧ e.built = e0.built) := by
  refine ⟨fun d calls h => (autodetect_meta am source d calls h).1, ?_, ?_, ?_, ?_⟩
  · intro m μ hc
    rcases hauto : autodetect am source with ⟨_ | d, calls⟩
    · rw [Create_of_autodetect_none am source calls hauto] at hc
      unfold autodetect at hauto
      cases am with
      | none =>
        simp only at hauto
        split at hauto
        · simp only [Prod.mk.injEq, true_and] at hauto
          rw [← hauto] at hc
          simp at hc
        · simp at hauto
      | some ex =>
        simp only at hauto
        split at hauto
        · split at hauto
          · simp only [Prod.mk.injEq, true_and] at hauto
            rw [← hauto] at hc
            simp at hc
          · split at hauto <;> simp at hauto
        · simp at hauto
    · obtain ⟨hmeta, hsn⟩ := autodetect_meta am source d calls hauto
      rw [Create_of_autodetect am source d calls hauto] at hc
      rcases unwrapAndDispatch_calls_subset _ _ _ _ _ _ _ hc with h | ⟨m', h⟩ | ⟨m', h⟩
      · rcases hsn _ h with h' | h' <;> exact Call.noConfusion h'
      · exact Call.noConfusion h
      · rw [← hmeta]
        exact (Call.createAmExExtractor.inj h).2
  · intro mime m μ hc
    rcases unwrapAndDispatch_calls_subset am source none false mime [] _ hc
      with h | ⟨m', h⟩ | ⟨m', h⟩
    · simp at h
    · exact Call.noConfusion h
    · exact (Call.createAmExExtractor.inj h).2
  · intro e s μ h hb
    rcases hauto : autodetect am source with ⟨_ | d, calls⟩
    · rw [Create_of_autodetect_none am source calls hauto] at h
      simp at h
    · obtain ⟨hmeta, _⟩ := autodetect_meta am source d calls hauto
      rw [Create_of_autodetect am source d calls hauto, hmeta] at h
      exact unwrapAndDispatch_ret_meta am source _ _ _ _ e s μ h hb
  · intro mime e s μ h hb
    exact unwrapAndDispatch_ret_meta am source none false mime [] e s μ h hb

theorem Create_meta_witness :
    autodetect (some (sniffingOnly ⟨true, "audio/mpeg".toList, 1, some ⟨9⟩⟩))
        ⟨2, ⟨true, "audio/flac".toList, 0.5, some ⟨3⟩⟩⟩
      = (some ⟨"audio/mpeg".toList, 1, some ⟨3⟩, true⟩, [Call.sniff, Call.sniffFFmpegFormat])
    ∧ (⟨"audio/mpeg".toList, 1, some ⟨3⟩, true⟩ : Detected).meta
        = (⟨2, ⟨true, "audio/flac".toList, 0.5, some ⟨3⟩⟩⟩ : DataSource).sniff.meta
    ∧ MediaExtractor.Create (some (sniffingOnly ⟨true, "audio/mpeg".toList, 1, some ⟨9⟩⟩))
        ⟨2, ⟨true, "audio/flac".toList, 0.5, some ⟨3⟩⟩⟩ none
      = ⟨some ⟨.MP3Extractor ⟨2, ⟨true, "audio/flac".toList, 0.5, some ⟨3⟩⟩⟩ (some ⟨3⟩),
            some false⟩,
          [Call.sniff, Call.sniffFFmpegFormat,
            Call.createFFmpegExtractor "audio/mpeg".toList]⟩ := by
  have hev : autodetect (some (sniffingOnly ⟨true, "audio/mpeg".toList, 1, some ⟨9⟩⟩))
      ⟨2, ⟨true, "audio/flac".toList, 0.5, some ⟨3⟩⟩⟩
      = (some ⟨"audio/mpeg".toList, 1, some ⟨3⟩, true⟩,
          [Call.sniff, Call.sniffFFmpegFormat]) := by
    norm_num [autodetect, primaryConfidence, sniffingOnly]
  refine ⟨hev, (Create_meta _ _).1 _ _ hev, ?_⟩
  rw [Create_of_autodetect _ _ _ _ hev]
  rfl

end android
